import Mathlib

/-!
Verification of the TimeTamer scheduling decision engine.

Shallow embedding of `backend/app/services/scheduling_engine.py` and
`backend/app/services/day_context.py` (plus the data shapes from
`backend/app/db/models.py` and `backend/app/schemas/*.py`).

Modelling conventions:
* Timestamps (`datetime`) are minutes since an epoch midnight, as `Int`.
  `strftime("%Y-%m-%d")` becomes the day index `dateOf`, and
  `strftime("%H:%M")` becomes the minute-of-day `todOf` rendered through
  `formatHM` to a zero-padded `HH:MM` string.
* Time-of-day values carried by slots stay strings, as in the JSON columns;
  Python string comparison is code-point lexicographic, embedded as
  `charListLt` over `String.data`.
* Python dynamic values appearing in rule-condition JSON are the inductive
  `PyVal`; Python `==` (with `bool`/`int` numeric coercion) is `pyEq`, and
  Python ordered comparison, which raises `TypeError` on unordered operand
  types, is `pyCmp` into `Except`.
* Database rows live in a `World` record; SQLAlchemy `.first()` is `head?`
  of the filtered row list, and SQL `ORDER BY` is a stable sort
  (`List.insertionSort`) by the documented PostgreSQL key semantics.
* Python floats are embedded as `ℚ`.
* `try/except` boundaries are `Except String` computations plus a wrapper.
-/

namespace TimeTamer

/-- A scalar JSON value appearing in rule conditions. -/
inductive PyScalar where
  | none
  | bool (b : Bool)
  | int (n : Int)
  | str (s : String)
deriving DecidableEq, Repr

/-- Dynamic (JSON-valued) Python value, as stored in rule conditions: a
scalar or a list of scalars (the shapes rule conditions use). -/
inductive PyVal where
  | none
  | bool (b : Bool)
  | int (n : Int)
  | str (s : String)
  | list (xs : List PyScalar)
deriving DecidableEq, Repr

/-- The scalar as a dynamic value. -/
def PyScalar.val : PyScalar → PyVal
  | .none => .none
  | .bool b => .bool b
  | .int n => .int n
  | .str s => .str s

/-- Numeric view of a Python value: `bool` is an `int` subtype in Python. -/
def PyVal.asNum : PyVal → Option Int
  | .bool b => some (if b then 1 else 0)
  | .int n => some n
  | _ => Option.none

/-- Python `==` on scalars (`True == 1` holds in Python). -/
def scalarEq : PyScalar → PyScalar → Bool
  | .none, .none => true
  | .bool a, .bool b => a == b
  | .bool a, .int n => (if a then (1 : Int) else 0) == n
  | .int n, .bool b => n == (if b then (1 : Int) else 0)
  | .int a, .int b => a == b
  | .str a, .str b => a == b
  | _, _ => false

/-- Python `==` on lists: pointwise, equal lengths. -/
def pyListEq : List PyScalar → List PyScalar → Bool
  | [], [] => true
  | a :: as, b :: bs => scalarEq a b && pyListEq as bs
  | _, _ => false

/-- Python `==` on the embedded values. -/
def pyEq : PyVal → PyVal → Bool
  | .none, .none => true
  | .bool a, .bool b => a == b
  | .bool a, .int n => (if a then (1 : Int) else 0) == n
  | .int n, .bool b => n == (if b then (1 : Int) else 0)
  | .int a, .int b => a == b
  | .str a, .str b => a == b
  | .list xs, .list ys => pyListEq xs ys
  | _, _ => false

/-- Python code-point lexicographic order on character lists. -/
def charListLt : List Char → List Char → Bool
  | [], [] => false
  | [], _ :: _ => true
  | _ :: _, [] => false
  | a :: as, b :: bs =>
    if a.toNat < b.toNat then true
    else if b.toNat < a.toNat then false
    else charListLt as bs

/-- Python `<` on strings. -/
def pyStrLt (a b : String) : Bool := charListLt a.data b.data

/-- Python `<=` on strings. -/
def pyStrLe (a b : String) : Bool := pyStrLt a b || a == b

/-- Python ordered comparison on scalars: numbers together, strings
together; any other combination raises `TypeError`. -/
def scalarCmp : PyScalar → PyScalar → Except String Ordering
  | .str a, .str b => .ok (if pyStrLt a b then .lt else if a == b then .eq else .gt)
  | a, b =>
    match a.val.asNum, b.val.asNum with
    | some m, some n => .ok (if m < n then .lt else if m = n then .eq else .gt)
    | _, _ => .error "TypeError: unsupported comparison between operand types"

/-- Python ordered comparison on lists: lexicographic, raising on the first
incomparable element pair. -/
def pyListCmp : List PyScalar → List PyScalar → Except String Ordering
  | [], [] => .ok .eq
  | [], _ :: _ => .ok .lt
  | _ :: _, [] => .ok .gt
  | x :: xs, y :: ys =>
    match scalarCmp x y with
    | .error e => .error e
    | .ok .eq => pyListCmp xs ys
    | .ok o => .ok o

/-- Python ordered comparison (`<`, `>`) on the embedded values. -/
def pyCmp : PyVal → PyVal → Except String Ordering
  | .str a, .str b => .ok (if pyStrLt a b then .lt else if a == b then .eq else .gt)
  | .list xs, .list ys => pyListCmp xs ys
  | a, b =>
    match a.asNum, b.asNum with
    | some m, some n => .ok (if m < n then .lt else if m = n then .eq else .gt)
    | _, _ => .error "TypeError: unsupported comparison between operand types"

/-- Minutes in a day; timestamps are minutes since an epoch midnight. -/
def minutesPerDay : Int := 1440

/-- Calendar-day index of a timestamp (`strftime("%Y-%m-%d")`). -/
def dateOf (t : Int) : Int := t.fdiv minutesPerDay

/-- Minute-of-day of a timestamp (`strftime("%H:%M")`). -/
def todOf (t : Int) : Int := t.emod minutesPerDay

/-- ASCII digit character. -/
def digitChar (n : Nat) : Char := Char.ofNat (48 + n)

/-- Two-digit zero-padded rendering. -/
def pad2 (n : Nat) : List Char := [digitChar (n / 10), digitChar (n % 10)]

/-- Render a minute-of-day as the zero-padded `HH:MM` string produced by
`strftime("%H:%M")`. Fixed-width zero-padded rendering makes code-point
lexicographic order agree with time order. -/
def formatHM (t : Int) : String :=
  String.mk (pad2 (t.toNat / 60) ++ ':' :: pad2 (t.toNat % 60))

/-- Accumulate the numeric value of a digit string; `Option.none` when a
non-digit appears or the input is empty. -/
def digitsToNat : List Char → Option Nat → Option Nat
  | [], acc => acc
  | c :: cs, acc =>
    if 48 ≤ c.toNat ∧ c.toNat ≤ 57 then
      digitsToNat cs (some ((acc.getD 0) * 10 + (c.toNat - 48)))
    else Option.none

/-- Split at the first colon. -/
def splitColon : List Char → List Char → Option (List Char × List Char)
  | [], _ => Option.none
  | c :: cs, acc => if c = ':' then some (acc.reverse, cs) else splitColon cs (c :: acc)

/-- Embeds `datetime.strptime(..., "%H:%M")` on the time-of-day part: fails (raises)
on anything that is not a valid `HH:MM` clock time. -/
def parseHM (s : String) : Except String Int :=
  match splitColon s.data [] with
  | Option.none => .error "ValueError: time data does not match format"
  | some (h, m) =>
    match digitsToNat h Option.none, digitsToNat m Option.none with
    | some hh, some mm =>
      if hh < 24 ∧ mm < 60 then .ok ((hh * 60 + mm : Nat) : Int)
      else .error "ValueError: time data out of range"
    | _, _ => .error "ValueError: time data does not match format"

/-- Proleptic Gregorian civil date `(year, month, day)` of a day index
(day 0 = 1970-01-01), the standard days-to-civil computation that
`datetime.date` arithmetic is built on. -/
def civilOfDays (z0 : Int) : Int × Int × Int :=
  let z := z0 + 719468
  let era := z.fdiv 146097
  let doe := z - era * 146097
  let yoe := (doe - doe.fdiv 1460 + doe.fdiv 36524 - doe.fdiv 146096).fdiv 365
  let y := yoe + era * 400
  let doy := doe - (365 * yoe + yoe.fdiv 4 - yoe.fdiv 100)
  let mp := (5 * doy + 2).fdiv 153
  let d := doy - (153 * mp + 2).fdiv 5 + 1
  let m := if mp < 10 then mp + 3 else mp - 9
  (if m ≤ 2 then y + 1 else y, m, d)

/-- The `date.year` of a day index. -/
def yearOf (z : Int) : Int := (civilOfDays z).1

/-- The `date.month` of a day index. -/
def monthOf (z : Int) : Int := (civilOfDays z).2.1

/-- Python `date.weekday()`: Monday = 0 ... Sunday = 6. -/
def weekdayOf (z : Int) : Int := (z + 3).emod 7


/-- Embeds `WorkEnvironmentEnum` from `db/models.py`. -/
inductive WorkEnvironmentEnum where
  | HOME
  | OFFICE
  | OUTDOORS
  | HYBRID
deriving DecidableEq, Repr

/-- The `.value` string of a work environment member. -/
def WorkEnvironmentEnum.value : WorkEnvironmentEnum → String
  | .HOME => "home"
  | .OFFICE => "office"
  | .OUTDOORS => "outdoors"
  | .HYBRID => "hybrid"

/-- Embeds `PriorityEnum` from `db/models.py`, in declaration order (which is also
the PostgreSQL native-enum comparison order). -/
inductive PriorityEnum where
  | LOW
  | MEDIUM
  | HIGH
  | URGENT
deriving DecidableEq, Repr

/-- The `.value` string of a priority member. -/
def PriorityEnum.value : PriorityEnum → String
  | .LOW => "low"
  | .MEDIUM => "medium"
  | .HIGH => "high"
  | .URGENT => "urgent"

/-- PostgreSQL comparison position of a native enum value = its declaration
index in `PriorityEnum`. -/
def PriorityEnum.sortIndex : PriorityEnum → Nat
  | .LOW => 0
  | .MEDIUM => 1
  | .HIGH => 2
  | .URGENT => 3

/-- Embeds `ValidationResultEnum` from `schemas/scheduling.py`. -/
inductive ValidationResultEnum where
  | ALLOWED
  | BLOCKED
  | WARNED
deriving DecidableEq, Repr

/-- Embeds `ActionEnum` from `schemas/scheduling.py`. -/
inductive ActionEnum where
  | ALLOW
  | BLOCK
  | WARN
  | SUGGEST_ALTERNATIVE
deriving DecidableEq, Repr

/-- Embeds `FocusSlot` (schemas/calendar.py): times kept as `HH:MM` strings, the
focus level as its string value, exactly as in the JSON columns. -/
structure FocusSlot where
  start_time : String
  end_time : String
  focus_level : String
deriving DecidableEq, Repr

/-- Embeds `AvailabilitySlot` (schemas/calendar.py). -/
structure AvailabilitySlot where
  start_time : String
  end_time : String
  status : String
deriving DecidableEq, Repr

/-- Embeds `RecurrencePattern` (schemas/calendar.py); dates are day indices. -/
structure RecurrencePattern where
  pattern_type : String
  days_of_week : List Int
  start_date : Int
  end_date : Option Int
  interval : Int
deriving DecidableEq, Repr

/-- Pydantic validation of `RecurrencePattern(**raw)`: pattern type drawn
from the four literals, weekday indices within 0..6, interval at least 1.
`RecurrencePattern(**setting.recurrence_pattern)` raises on other input
and the caller skips that record. -/
def pattern_valid (p : RecurrencePattern) : Bool :=
  (p.pattern_type == "daily" || p.pattern_type == "weekly" ||
    p.pattern_type == "monthly" || p.pattern_type == "custom") &&
  p.days_of_week.all (fun d => 0 ≤ d && d ≤ 6) &&
  1 ≤ p.interval

/-- The typed payload of a `UserDaySettings.value` column, one variant per
`setting_type` (the engine reads the inner key matching the type). -/
inductive SettingValue where
  | env (e : String)
  | focus (slots : List FocusSlot)
  | avail (slots : List AvailabilitySlot)
deriving DecidableEq, Repr

/-- The `setting_type` string of a stored value. -/
def SettingValue.setting_type : SettingValue → String
  | .env _ => "work_environment"
  | .focus _ => "focus_slots"
  | .avail _ => "availability_slots"

/-- Modelled from the spec: the `UserDaySettings` ORM row (§3 "User Day
Setting"); the class is imported by `day_context.py` but its declaration is
not among the sources, so its shape follows the spec and its uses in
`get_user_settings_for_date`. -/
structure UserDaySettings where
  user_id : Nat
  value : SettingValue
  recurrence_pattern : RecurrencePattern
  is_active : Bool
deriving DecidableEq, Repr

/-- Embeds the `UserCalendarDay` row (db/models.py): the persisted daily override. -/
structure UserCalendarDay where
  calendar_day_id : Nat
  user_id : Nat
  date : Int
  work_environment : WorkEnvironmentEnum
  focus_slots : List FocusSlot
  availability_slots : List AvailabilitySlot
deriving DecidableEq, Repr

/-- Embeds `CalendarDayResponse` (schemas/calendar.py): the resolved day context.
`work_environment` is the plain string the pydantic model carries. -/
structure CalendarDayResponse where
  date : Int
  work_environment : String
  focus_slots : List FocusSlot
  availability_slots : List AvailabilitySlot
  source : String
  calendar_day_id : Option Nat := Option.none
deriving DecidableEq, Repr

/-- Default environment of `BaseDayContext` (schemas/calendar.py). -/
def base_work_environment : String := "home"

/-- Default focus slots of `BaseDayContext`. -/
def base_focus_slots : List FocusSlot :=
  [⟨"09:00", "11:00", "high"⟩, ⟨"14:00", "16:00", "medium"⟩]

/-- Default availability slots of `BaseDayContext`. -/
def base_availability_slots : List AvailabilitySlot :=
  [⟨"09:00", "17:00", "available"⟩]

/-- A stored scheduled slot of a task (JSON column `scheduled_slots`). -/
structure ScheduledSlot where
  start_time : Int
  end_time : Int
  calendar_day_id : Option Nat
deriving DecidableEq, Repr

/-- Embeds the `Task` row (db/models.py), restricted to the fields the engine reads. -/
structure Task where
  task_id : Nat
  user_id : Nat
  title : String
  category_id : Option Nat := Option.none
  priority : Option PriorityEnum := some .MEDIUM
  estimated_duration_minutes : Int
  deadline : Option Int := Option.none
  fitting_environments : List WorkEnvironmentEnum := []
  requires_focus : Bool := false
  scheduled_slots : List ScheduledSlot := []
deriving DecidableEq, Repr

/-- One rule condition: a JSON object with the four keys the engine reads. -/
structure RuleCondition where
  source : String
  field : String
  operator : String
  value : PyVal

/-- Embeds the `SchedulingRule` row (db/models.py). -/
structure SchedulingRule where
  rule_id : Nat
  user_id : Nat
  name : String
  conditions : List RuleCondition
  action : ActionEnum
  alert_message : Option String := Option.none
  priority_order : Int := 100
  is_active : Bool := true

/-- Embeds the `User` row (db/models.py), restricted to what the engine reads. -/
structure User where
  user_id : Nat
  default_work_environment : Option WorkEnvironmentEnum := some .HOME
deriving DecidableEq, Repr

/-- The database contents visible to one engine call. -/
structure World where
  users : List User
  tasks : List Task
  calendar_days : List UserCalendarDay
  day_settings : List UserDaySettings
  rules : List SchedulingRule

/-- Embeds `BaseDayContext` (schemas/calendar.py): the system default layer. -/
structure BaseDayContext where
  work_environment : String := base_work_environment
  focus_slots : List FocusSlot := base_focus_slots
  availability_slots : List AvailabilitySlot := base_availability_slots
deriving DecidableEq, Repr

/-- Embeds `DayContextService.get_base_day_context`. -/
def get_base_day_context : BaseDayContext := {}

/-- Embeds `DayContextService.is_date_in_pattern` (day_context.py lines 18-64),
with the same early-return structure. -/
def is_date_in_pattern (date : Int) (pat : RecurrencePattern) : Bool :=
  if date < pat.start_date then false
  else if (match pat.end_date with
    | some e => decide (e < date)
    | Option.none => false) then false
  else if pat.pattern_type == "daily" then
    (date - pat.start_date).emod pat.interval == 0
  else if pat.pattern_type == "weekly" then
    if pat.days_of_week.isEmpty then false
    else if !(pat.days_of_week.contains (weekdayOf date)) then false
    else ((date - pat.start_date).fdiv 7).emod pat.interval == 0
  else if pat.pattern_type == "monthly" then
    ((yearOf date - yearOf pat.start_date) * 12 +
      monthOf date - monthOf pat.start_date).emod pat.interval == 0
  else if pat.pattern_type == "custom" then
    if pat.days_of_week.isEmpty then false
    else pat.days_of_week.contains (weekdayOf date)
  else false

/-- The `result` dict built by `get_user_settings_for_date`: at most one
stored value per setting type, later matching rows overwriting earlier. -/
structure SettingsDict where
  work_environment : Option String := Option.none
  focus_slots : Option (List FocusSlot) := Option.none
  availability_slots : Option (List AvailabilitySlot) := Option.none
deriving DecidableEq, Repr

/-- Embeds `DayContextService.get_user_settings_for_date` (day_context.py lines
66-85): active settings of the user in query (storage) order; a row whose
recurrence pattern fails pydantic validation raises inside the `try` and is
skipped; a matching row overwrites the dict entry for its setting type. -/
def get_user_settings_for_date (user_id : Nat) (date : Int) (w : World) : SettingsDict :=
  (w.day_settings.filter (fun s => s.user_id == user_id && s.is_active)).foldl
    (fun result setting =>
      if pattern_valid setting.recurrence_pattern &&
          is_date_in_pattern date setting.recurrence_pattern then
        match setting.value with
        | .env e => { result with work_environment := some e }
        | .focus fs => { result with focus_slots := some fs }
        | .avail slots => { result with availability_slots := some slots }
      else result) {}

/-- The `daily_override` dict built in `generate_day_contexts_for_range`
(always carrying all three keys). -/
structure DailyOverride where
  work_environment : String
  focus_slots : List FocusSlot
  availability_slots : List AvailabilitySlot
deriving DecidableEq, Repr

/-- Embeds `DayContextService.merge_day_contexts` (day_context.py lines 87-146):
base layer, then user settings field by field, then the daily override;
each later layer replaces the field wholesale and retags `source`. -/
def merge_day_contexts (base_context : BaseDayContext) (user_settings : SettingsDict)
    (daily_override : Option DailyOverride) (date : Int) : CalendarDayResponse :=
  let merged : CalendarDayResponse :=
    { date := date
      work_environment := base_context.work_environment
      focus_slots := base_context.focus_slots
      availability_slots := base_context.availability_slots
      source := "default" }
  let merged := match user_settings.work_environment with
    | some e => { merged with work_environment := e, source := "user_settings" }
    | Option.none => merged
  let merged := match user_settings.focus_slots with
    | some fs => { merged with focus_slots := fs, source := "user_settings" }
    | Option.none => merged
  let merged := match user_settings.availability_slots with
    | some slots => { merged with availability_slots := slots, source := "user_settings" }
    | Option.none => merged
  match daily_override with
  | some ov =>
    { merged with
        work_environment := ov.work_environment
        focus_slots := ov.focus_slots
        availability_slots := ov.availability_slots
        source := "daily_override" }
  | Option.none => merged

/-- The days visited by the `while current_date <= end` loop of
`generate_day_contexts_for_range`, stepping one day at a time. -/
def rangeDays (s e : Int) : List Int :=
  (List.range (if s ≤ e then (e - s).toNat + 1 else 0)).map (fun (i : Nat) => s + (i : Int))

/-- Embeds `DayContextService.generate_day_contexts_for_range` (day_context.py
lines 148-199): one merged context per day of the inclusive range; a
persisted `UserCalendarDay` for the day supplies the override layer and its
row identity. -/
def generate_day_contexts_for_range (user_id : Nat) (start_date end_date : Int)
    (w : World) : List CalendarDayResponse :=
  (rangeDays start_date end_date).map (fun date =>
    let user_settings := get_user_settings_for_date user_id date w
    let calendar_day :=
      (w.calendar_days.filter (fun cd => cd.user_id == user_id && cd.date == date)).head?
    let daily_override := calendar_day.map (fun cd =>
      DailyOverride.mk cd.work_environment.value cd.focus_slots cd.availability_slots)
    let day_context := merge_day_contexts get_base_day_context user_settings daily_override date
    match calendar_day with
    | some cd => { day_context with calendar_day_id := some cd.calendar_day_id }
    | Option.none => day_context)

/-- A block-reason string, as a tag carrying the interpolated data of the
f-string that produces it in `scheduling_engine.py`. -/
inductive BlockReason where
  | taskNotFound
  | envMismatch (required : List String) (actual : String)
  | outsideAvailability
  | fromRule (rule_name : String) (message : String)
  | validationError (e : String)
deriving DecidableEq, Repr

/-- A warning string, as a tag carrying its f-string data. -/
inductive WarningMsg where
  | focusNotHigh
  | fromRule (rule_name : String) (message : String)
  | suggestsAlternative (rule_name : String)
deriving DecidableEq, Repr

/-- A suggestion reason string, as a tag carrying its f-string data. -/
inductive SuggestReason where
  | focusSlot (slot_start slot_end : String)
  | availableTime (slot_start slot_end : String)
  | defaultBusinessHours
deriving DecidableEq, Repr

/-- Embeds `SuggestionSlot` (schemas/scheduling.py); the float score is a rational. -/
structure SuggestionSlot where
  start_time : Int
  end_time : Int
  score : ℚ
  reason : SuggestReason
  calendar_day_id : Option Nat
deriving DecidableEq, Repr

/-- Embeds `RuleEvaluationResult` (schemas/scheduling.py). -/
structure RuleEvaluationResult where
  rule_id : Nat
  rule_name : String
  action : ActionEnum
  triggered : Bool
  message : Option String
  severity : String
deriving DecidableEq, Repr

/-- Embeds `ValidationResult` (schemas/scheduling.py). -/
structure ValidationResult where
  is_valid : Bool
  validation_result : ValidationResultEnum
  warnings : List WarningMsg := []
  block_reasons : List BlockReason := []
  suggestions : List SuggestionSlot := []
  rule_evaluations : List RuleEvaluationResult := []
deriving DecidableEq, Repr

/-- The task query of `validate_placement` / `suggest_slots` /
`auto_schedule_tasks`: `.filter(task_id == ..., user_id == ...).first()`. -/
def findTask (w : World) (task_id user_id : Nat) : Option Task :=
  (w.tasks.filter (fun t => t.task_id == task_id && t.user_id == user_id)).head?

/-- The fallback context synthesized when no day context resolves
(scheduling_engine.py lines 48-58 and 394-404): the stored default work
environment of the user (or "home") with empty slot lists. -/
def fallback_day_context (w : World) (user_id : Nat) (date : Int) : CalendarDayResponse :=
  let user := (w.users.filter (fun u => u.user_id == user_id)).head?
  let default_env := match user with
    | some u =>
      match u.default_work_environment with
      | some e => e.value
      | Option.none => "home"
    | Option.none => "home"
  { date := date
    work_environment := default_env
    focus_slots := []
    availability_slots := []
    source := "default" }

/-- The `if day_contexts: ... else: fallback` pattern shared by
`validate_placement` and `suggest_slots`. -/
def resolveContextWithFallback (w : World) (user_id : Nat) (date : Int) : CalendarDayResponse :=
  match generate_day_contexts_for_range user_id date date w with
  | day_context :: _ => day_context
  | [] => fallback_day_context w user_id date

/-- Embeds `SchedulingEngine._is_within_focus_time` (lines 141-161): full
containment of the `HH:MM` span in a single focus slot, by Python string
comparison. -/
def is_within_focus_time (start_time end_time : Int) (calendar_day : CalendarDayResponse) : Bool :=
  if calendar_day.focus_slots.isEmpty then false
  else
    let start_time_str := formatHM (todOf start_time)
    let end_time_str := formatHM (todOf end_time)
    calendar_day.focus_slots.any (fun slot =>
      pyStrLe slot.start_time start_time_str && pyStrLe end_time_str slot.end_time)

/-- Embeds `SchedulingEngine._is_within_availability` (lines 163-190): true when no
availability slots exist at all, else full containment in a single slot
whose status is "available". -/
def is_within_availability (start_time end_time : Int) (calendar_day : CalendarDayResponse) : Bool :=
  if calendar_day.availability_slots.isEmpty then true
  else
    let start_time_str := formatHM (todOf start_time)
    let end_time_str := formatHM (todOf end_time)
    calendar_day.availability_slots.any (fun slot =>
      slot.status == "available" &&
      pyStrLe slot.start_time start_time_str && pyStrLe end_time_str slot.end_time)

/-- Loop body of `_get_focus_level_for_timespan`: scan slots in order,
returning the level of a slot containing the span start, else remembering
the first overlapping level. -/
def get_focus_level_aux (start_time_str end_time_str : String) :
    List FocusSlot → Option String → Option String
  | [], chosen_level => chosen_level
  | slot :: rest, chosen_level =>
    if pyStrLt start_time_str slot.end_time && pyStrLt slot.start_time end_time_str then
      if pyStrLe slot.start_time start_time_str && pyStrLe start_time_str slot.end_time then
        some slot.focus_level
      else
        get_focus_level_aux start_time_str end_time_str rest
          (match chosen_level with
            | Option.none => some slot.focus_level
            | c => c)
    else get_focus_level_aux start_time_str end_time_str rest chosen_level

/-- Embeds `SchedulingEngine._get_focus_level_for_timespan` (lines 287-315). -/
def get_focus_level_for_timespan (start_time end_time : Int)
    (calendar_day : CalendarDayResponse) : Option String :=
  if calendar_day.focus_slots.isEmpty then Option.none
  else get_focus_level_aux (formatHM (todOf start_time)) (formatHM (todOf end_time))
    calendar_day.focus_slots Option.none

/-- Embeds `SchedulingEngine._apply_operator` (lines 343-358); the ordered
comparisons raise `TypeError` on unordered operand types, every other
branch returns; an unknown operator skips the condition (true). -/
def apply_operator (actual_value : PyVal) (operator : String) (expected_value : PyVal) :
    Except String Bool :=
  if operator == "equals" then .ok (pyEq actual_value expected_value)
  else if operator == "not_equals" then .ok (!pyEq actual_value expected_value)
  else if operator == "greater_than" then
    match pyCmp actual_value expected_value with
    | .ok o => .ok (o == .gt)
    | .error e => .error e
  else if operator == "less_than" then
    match pyCmp actual_value expected_value with
    | .ok o => .ok (o == .lt)
    | .error e => .error e
  else if operator == "in" then
    .ok (match expected_value with
      | .list xs => xs.any (fun x => pyEq actual_value x.val)
      | _ => false)
  else if operator == "not_in" then
    .ok (match expected_value with
      | .list xs => !xs.any (fun x => pyEq actual_value x.val)
      | _ => true)
  else .ok true

/-- Embeds `SchedulingEngine._evaluate_task_property_condition` (lines 257-270). -/
def evaluate_task_property_condition (task : Task) (field operator : String)
    (value : PyVal) : Except String Bool :=
  if field == "priority" then
    apply_operator (match task.priority with
      | some p => .str p.value
      | Option.none => .none) operator value
  else if field == "requires_focus" then
    apply_operator (.bool task.requires_focus) operator value
  else if field == "estimated_duration_minutes" then
    apply_operator (.int task.estimated_duration_minutes) operator value
  else if field == "category_id" then
    apply_operator (match task.category_id with
      | some c => .str (Nat.repr c)
      | Option.none => .none) operator value
  else .ok true

/-- Embeds `SchedulingEngine._evaluate_calendar_day_condition` (lines 272-285). -/
def evaluate_calendar_day_condition (calendar_day : CalendarDayResponse)
    (field operator : String) (value : PyVal) : Except String Bool :=
  if field == "work_environment" then
    apply_operator (.str calendar_day.work_environment) operator value
  else if field == "has_focus_slots" then
    apply_operator (.bool (if calendar_day.focus_slots.isEmpty then false
      else decide (0 < calendar_day.focus_slots.length))) operator value
  else .ok true

/-- The `Option String` focus level as the Python value handed to the operator. -/
def levelToPyVal : Option String → PyVal
  | some s => .str s
  | Option.none => .none

/-- Embeds `SchedulingEngine._evaluate_time_slot_condition` (lines 317-341):
dispatch on the expected-value type for `is_focus_time` (boolean: membership
in a focus slot via `_is_within_focus_time`; string or list: the resolved
focus level), then `is_available` and `hour_of_day`. -/
def evaluate_time_slot_condition (calendar_day : CalendarDayResponse)
    (start_time end_time : Int) (field operator : String) (value : PyVal) :
    Except String Bool :=
  if field == "is_focus_time" then
    match value with
    | .bool _ =>
      apply_operator (.bool (is_within_focus_time start_time end_time calendar_day))
        operator value
    | .str _ =>
      apply_operator (levelToPyVal (get_focus_level_for_timespan start_time end_time calendar_day))
        operator value
    | .list _ =>
      apply_operator (levelToPyVal (get_focus_level_for_timespan start_time end_time calendar_day))
        operator value
    | _ => .ok true
  else if field == "is_available" then
    apply_operator (.bool (is_within_availability start_time end_time calendar_day))
      operator value
  else if field == "hour_of_day" then
    apply_operator (.int ((todOf start_time).fdiv 60)) operator value
  else .ok true

/-- Condition loop of `_evaluate_rule_conditions` (lines 239-255): each
condition checked in order, an unrecognized source falls through the
`if`/`elif` chain and the loop continues. -/
def conditions_hold (task : Task) (calendar_day : CalendarDayResponse)
    (start_time end_time : Int) : List RuleCondition → Except String Bool
  | [] => .ok true
  | condition :: rest => do
    let keep ←
      if condition.source == "task_property" then
        evaluate_task_property_condition task condition.field condition.operator condition.value
      else if condition.source == "calendar_day" then
        evaluate_calendar_day_condition calendar_day condition.field condition.operator condition.value
      else if condition.source == "time_slot" then
        evaluate_time_slot_condition calendar_day start_time end_time
          condition.field condition.operator condition.value
      else pure true
    if keep then conditions_hold task calendar_day start_time end_time rest
    else pure false

/-- Embeds `SchedulingEngine._evaluate_rule_conditions` (lines 226-255): an empty
condition list never triggers; otherwise all conditions must hold. -/
def evaluate_rule_conditions (rule : SchedulingRule) (task : Task)
    (calendar_day : CalendarDayResponse) (start_time end_time : Int) :
    Except String Bool :=
  if rule.conditions.isEmpty then .ok false
  else conditions_hold task calendar_day start_time end_time rule.conditions

/-- Embeds `SchedulingEngine._evaluate_rules` (lines 192-224): active rules of the
user ordered by `priority_order` ascending (stable sort = SQL `ORDER BY`),
one evaluation record per rule. -/
def evaluate_rules (w : World) (task : Task) (calendar_day : CalendarDayResponse)
    (start_time end_time : Int) (user_id : Nat) :
    Except String (List RuleEvaluationResult) :=
  let rules := List.insertionSort (fun a b : SchedulingRule => a.priority_order ≤ b.priority_order)
    (w.rules.filter (fun r => r.user_id == user_id && r.is_active))
  rules.mapM (fun rule => do
    let triggered ← evaluate_rule_conditions rule task calendar_day start_time end_time
    pure { rule_id := rule.rule_id
           rule_name := rule.name
           action := rule.action
           triggered := triggered
           message := if triggered then rule.alert_message else Option.none
           severity := if rule.action == .WARN && triggered then "warning" else "info" })

/-- Embeds `SchedulingEngine._calculate_slot_score` (lines 527-570): base 0.5,
additive bonuses, capped at 1.0; floats as rationals. -/
def calculate_slot_score (task : Task) (calendar_day : CalendarDayResponse)
    (start_time end_time : Int) : ℚ :=
  let score : ℚ := 0.5
  let score :=
    if task.requires_focus && is_within_focus_time start_time end_time calendar_day then
      score + 0.3
    else score
  let score :=
    if !task.fitting_environments.isEmpty &&
        (task.fitting_environments.map (fun e => e.value)).contains calendar_day.work_environment then
      score + 0.2
    else score
  let score :=
    match task.priority with
    | some p =>
      if p.value == "urgent" then score + 0.2
      else if p.value == "high" then score + 0.1
      else score
    | Option.none => score
  let score :=
    match task.deadline with
    | some deadline =>
      let days_until_deadline := (deadline - start_time).fdiv minutesPerDay
      if days_until_deadline ≤ 1 then score + 0.2
      else if days_until_deadline ≤ 3 then score + 0.1
      else score
    | Option.none => score
  min score 1

/-- The repeated emission step of `_generate_day_suggestions`: a candidate
window becomes a suggestion only when it is at least as long as the task
estimate, scored over the whole window, placed at the front of the window. -/
def emit_suggestion (task : Task) (calendar_day : CalendarDayResponse)
    (window_start window_end : Int) (reason : SuggestReason)
    (cd_id : Option Nat) : Option SuggestionSlot :=
  let task_duration := task.estimated_duration_minutes
  if task_duration ≤ window_end - window_start then
    some { start_time := window_start
           end_time := window_start + task_duration
           score := calculate_slot_score task calendar_day window_start window_end
           reason := reason
           calendar_day_id := cd_id }
  else Option.none

/-- Loop body of the focus-slot pass of `_generate_day_suggestions`
(lines 444-471). -/
def focus_slot_step (task : Task) (calendar_day : CalendarDayResponse) (date : Int)
    (acc : List SuggestionSlot) (slot : FocusSlot) : Except String (List SuggestionSlot) :=
  if slot.start_time != "" && slot.end_time != "" then do
    let slot_start_min ← parseHM slot.start_time
    let slot_end_min ← parseHM slot.end_time
    let start_time := date * minutesPerDay + slot_start_min
    let end_time := date * minutesPerDay + slot_end_min
    match emit_suggestion task calendar_day start_time end_time
        (.focusSlot slot.start_time slot.end_time) calendar_day.calendar_day_id with
    | some suggestion => pure (acc ++ [suggestion])
    | Option.none => pure acc
  else pure acc

/-- Loop body of the availability-slot pass of `_generate_day_suggestions`
(lines 474-505). -/
def availability_slot_step (task : Task) (calendar_day : CalendarDayResponse) (date : Int)
    (acc : List SuggestionSlot) (slot : AvailabilitySlot) : Except String (List SuggestionSlot) :=
  if slot.status == "available" then
    if slot.start_time != "" && slot.end_time != "" then do
      let slot_start_min ← parseHM slot.start_time
      let slot_end_min ← parseHM slot.end_time
      let start_time := date * minutesPerDay + slot_start_min
      let end_time := date * minutesPerDay + slot_end_min
      match emit_suggestion task calendar_day start_time end_time
          (.availableTime slot.start_time slot.end_time) calendar_day.calendar_day_id with
      | some suggestion => pure (acc ++ [suggestion])
      | Option.none => pure acc
    else pure acc
  else pure acc

/-- Embeds `SchedulingEngine._generate_day_suggestions` (lines 419-525): skip the
day on an environment mismatch; focus-slot candidates when the task requires
focus, then available-slot candidates, or the 09:00-17:00 default when the
day has no availability slots. `strptime` of a malformed stored slot time
raises (propagating to the `suggest_slots` boundary). -/
def generate_day_suggestions (task : Task) (calendar_day : CalendarDayResponse)
    (date : Int) : Except String (List SuggestionSlot) :=
  if !task.fitting_environments.isEmpty &&
      !((task.fitting_environments.map (fun e => e.value)).contains calendar_day.work_environment) then
    pure []
  else do
    let focus_suggestions ←
      if !calendar_day.focus_slots.isEmpty && task.requires_focus then
        calendar_day.focus_slots.foldlM (focus_slot_step task calendar_day date)
          ([] : List SuggestionSlot)
      else pure []
    if !calendar_day.availability_slots.isEmpty then
      calendar_day.availability_slots.foldlM (availability_slot_step task calendar_day date)
        focus_suggestions
    else
      -- default business hours: strptime of the constants "09:00" and "17:00"
      let default_start := date * minutesPerDay + 540
      let default_end := date * minutesPerDay + 1020
      match emit_suggestion task calendar_day default_start default_end
          .defaultBusinessHours Option.none with
      | some suggestion => pure (focus_suggestions ++ [suggestion])
      | Option.none => pure focus_suggestions

/-- The timestamps visited by the `while current_date <= date_range[1]` loop
of `suggest_slots`, stepping `timedelta(days=1)`. -/
def loopDates (s e : Int) : List Int :=
  (List.range (if s ≤ e then ((e - s).fdiv minutesPerDay).toNat + 1 else 0)).map
    (fun (i : Nat) => s + (i : Int) * minutesPerDay)

/-- Body of `SchedulingEngine.suggest_slots` (lines 360-413) inside its
`try`: per-day candidates over the inclusive range, sorted by score
descending (stable, like `list.sort`), top five. -/
def suggest_slots_core (w : World) (task_id : Nat) (date_range : Int × Int)
    (user_id : Nat) : Except String (List SuggestionSlot) :=
  match findTask w task_id user_id with
  | Option.none => .ok []
  | some task => do
    let suggestions ← (loopDates date_range.1 date_range.2).foldlM
      (fun acc current_date => do
        let date := dateOf current_date
        let calendar_day := resolveContextWithFallback w user_id date
        let day_suggestions ← generate_day_suggestions task calendar_day date
        pure (acc ++ day_suggestions)) ([] : List SuggestionSlot)
    pure ((List.insertionSort (fun a b : SuggestionSlot => b.score ≤ a.score) suggestions).take 5)

/-- Embeds `SchedulingEngine.suggest_slots` with its `except Exception: return []`
boundary (lines 415-417). -/
def suggest_slots (w : World) (task_id : Nat) (date_range : Int × Int)
    (user_id : Nat) : List SuggestionSlot :=
  match suggest_slots_core w task_id date_range user_id with
  | .ok suggestions => suggestions
  | .error _ => []

/-- Python `message or default` on an optional string (empty string is
falsy). -/
def msgOr (message : Option String) (default : String) : String :=
  match message with
  | some s => if s == "" then default else s
  | Option.none => default

/-- One iteration of the rule-action loop of `validate_placement`
(lines 96-112): triggered BLOCK appends a block reason, WARN a warning,
SUGGEST_ALTERNATIVE invokes `suggest_slots` over a 7-day window from
`start_time` and, when non-empty, appends an informational warning plus the
suggestions; ALLOW does nothing. -/
def rule_action_step (w : World) (task : Task) (start_time : Int) (user_id : Nat)
    (acc : List BlockReason × List WarningMsg × List SuggestionSlot)
    (evaluation : RuleEvaluationResult) :
    List BlockReason × List WarningMsg × List SuggestionSlot :=
  let (block_reasons, warnings, accumulated_suggestions) := acc
  if evaluation.triggered then
    if evaluation.action == .BLOCK then
      (block_reasons ++ [.fromRule evaluation.rule_name
          (msgOr evaluation.message "Scheduling blocked by rule")],
        warnings, accumulated_suggestions)
    else if evaluation.action == .WARN then
      (block_reasons,
        warnings ++ [.fromRule evaluation.rule_name (msgOr evaluation.message "Warning from rule")],
        accumulated_suggestions)
    else if evaluation.action == .SUGGEST_ALTERNATIVE then
      let suggestions := suggest_slots w task.task_id
        (start_time, start_time + 7 * minutesPerDay) user_id
      if suggestions.isEmpty then acc
      else (block_reasons,
        warnings ++ [.suggestsAlternative evaluation.rule_name],
        accumulated_suggestions ++ suggestions)
    else acc
  else acc

/-- The rule-action loop of `validate_placement` (lines 95-112). -/
def process_rule_actions (w : World) (task : Task) (start_time : Int) (user_id : Nat)
    (rule_evaluations : List RuleEvaluationResult) :
    List BlockReason × List WarningMsg × List SuggestionSlot :=
  rule_evaluations.foldl (rule_action_step w task start_time user_id) ([], [], [])

/-- Final-status computation of `validate_placement` (lines 114-132). -/
def finalize_validation (warnings : List WarningMsg) (block_reasons : List BlockReason)
    (rule_evaluations : List RuleEvaluationResult)
    (suggestions : List SuggestionSlot) : ValidationResult :=
  if !block_reasons.isEmpty then
    { is_valid := false
      validation_result := .BLOCKED
      warnings := warnings
      block_reasons := block_reasons
      suggestions := suggestions
      rule_evaluations := rule_evaluations }
  else if !warnings.isEmpty ||
      rule_evaluations.any (fun e => e.action == .WARN && e.triggered) then
    { is_valid := true
      validation_result := .WARNED
      warnings := warnings
      block_reasons := block_reasons
      suggestions := suggestions
      rule_evaluations := rule_evaluations }
  else
    { is_valid := true
      validation_result := .ALLOWED
      warnings := warnings
      block_reasons := block_reasons
      suggestions := suggestions
      rule_evaluations := rule_evaluations }

/-- Body of `SchedulingEngine.validate_placement` (lines 16-132) inside its
`try`: task lookup, day-context resolution (with fallback), environment /
focus / availability checks, rule evaluation and actions, final status. -/
def validate_placement_core (w : World) (task_id : Nat) (start_time end_time : Int)
    (user_id : Nat) : Except String ValidationResult :=
  match findTask w task_id user_id with
  | Option.none =>
    .ok { is_valid := false, validation_result := .BLOCKED, block_reasons := [.taskNotFound] }
  | some task => do
    let date := dateOf start_time
    let calendar_day := resolveContextWithFallback w user_id date
    let block_env : List BlockReason :=
      if !task.fitting_environments.isEmpty then
        let task_envs := task.fitting_environments.map (fun e => e.value)
        if !(task_envs.contains calendar_day.work_environment) then
          [.envMismatch task_envs calendar_day.work_environment]
        else []
      else []
    let warn_focus : List WarningMsg :=
      if task.requires_focus then
        if (get_focus_level_for_timespan start_time end_time calendar_day) == some "high" then []
        else [.focusNotHigh]
      else []
    let block_avail : List BlockReason :=
      if is_within_availability start_time end_time calendar_day then []
      else [.outsideAvailability]
    let rule_evaluations ← evaluate_rules w task calendar_day start_time end_time user_id
    let (rule_blocks, rule_warns, accumulated_suggestions) :=
      process_rule_actions w task start_time user_id rule_evaluations
    pure (finalize_validation (warn_focus ++ rule_warns)
      (block_env ++ block_avail ++ rule_blocks) rule_evaluations accumulated_suggestions)

/-- Embeds `SchedulingEngine.validate_placement` with its `except Exception`
boundary (lines 134-139): any internal failure becomes a BLOCKED result
carrying a diagnostic reason. -/
def validate_placement (w : World) (task_id : Nat) (start_time end_time : Int)
    (user_id : Nat) : ValidationResult :=
  match validate_placement_core w task_id start_time end_time user_id with
  | .ok result => result
  | .error e =>
    { is_valid := false, validation_result := .BLOCKED, block_reasons := [.validationError e] }

/-- PostgreSQL position of `priority` under `ORDER BY priority DESC`:
native-enum comparison follows declaration order, and DESC places NULLs
first, i.e. above URGENT. -/
def priorityKey : Option PriorityEnum → Nat
  | some p => p.sortIndex
  | Option.none => 4

/-- Embeds `deadline ASC` with the PostgreSQL default NULLS LAST. -/
def deadlineLeNullsLast : Option Int → Option Int → Bool
  | Option.none, Option.none => true
  | Option.none, some _ => false
  | some _, Option.none => true
  | some x, some y => x ≤ y

/-- The two-key SQL sort order of `auto_schedule_tasks`:
`ORDER BY priority DESC, deadline ASC`. -/
def autoOrderLe (a b : Task) : Bool :=
  priorityKey b.priority < priorityKey a.priority ||
  (priorityKey a.priority == priorityKey b.priority &&
    deadlineLeNullsLast a.deadline b.deadline)

/-- The task batch loaded by `auto_schedule_tasks` (lines 584-586): the
requested ids of this user, in the SQL order. -/
def load_tasks_ordered (w : World) (task_ids : List Nat) (user_id : Nat) : List Task :=
  List.insertionSort (fun a b => autoOrderLe a b = true)
    (w.tasks.filter (fun t => task_ids.contains t.task_id && t.user_id == user_id))

/-- One `scheduled` entry of the auto-schedule summary. -/
structure ScheduledTaskInfo where
  task_id : Nat
  title : String
  scheduled_time : Int
  score : ℚ
deriving DecidableEq, Repr

/-- One `failed` entry of the auto-schedule summary. -/
structure FailedTaskInfo where
  task_id : Nat
  title : String
  reason : String
  errors : List BlockReason := []
deriving DecidableEq, Repr

/-- The summary dict returned by `auto_schedule_tasks`. -/
structure AutoScheduleSummary where
  scheduled : List ScheduledTaskInfo
  failed : List FailedTaskInfo
  total_tasks : Nat
  success_rate : ℚ
deriving DecidableEq, Repr

/-- Embeds `task.scheduled_slots = [...]` followed by `db.commit()`: the task row
now holds exactly the one chosen slot. -/
def commit_scheduled_slot (w : World) (task_id : Nat) (s : SuggestionSlot) : World :=
  { w with tasks := w.tasks.map (fun t =>
      if t.task_id == task_id then
        { t with scheduled_slots := [⟨s.start_time, s.end_time, s.calendar_day_id⟩] }
      else t) }

/-- One iteration of the `auto_schedule_tasks` loop (lines 588-631): no
suggestion ⇒ failure entry; else validate the top suggestion and either
commit it (success entry) or record the block reasons (failure entry). -/
def auto_schedule_step (user_id : Nat) (date_range : Int × Int)
    (acc : World × List ScheduledTaskInfo × List FailedTaskInfo) (task : Task) :
    World × List ScheduledTaskInfo × List FailedTaskInfo :=
  let (w, scheduled_tasks, failed_tasks) := acc
  let suggestions := suggest_slots w task.task_id date_range user_id
  match suggestions with
  | [] =>
    (w, scheduled_tasks, failed_tasks ++
      [{ task_id := task.task_id, title := task.title, reason := "No suitable slots found" }])
  | best_suggestion :: _ =>
    let validation := validate_placement w task.task_id
      best_suggestion.start_time best_suggestion.end_time user_id
    if validation.is_valid then
      (commit_scheduled_slot w task.task_id best_suggestion,
        scheduled_tasks ++
          [ScheduledTaskInfo.mk task.task_id task.title
            best_suggestion.start_time best_suggestion.score],
        failed_tasks)
    else
      (w, scheduled_tasks, failed_tasks ++
        [FailedTaskInfo.mk task.task_id task.title "Validation failed"
          validation.block_reasons])

/-- Embeds `SchedulingEngine.auto_schedule_tasks` (lines 572-647): greedy single
pass over the ordered batch, committing each accepted placement before the
next task is considered. The surrounding `except Exception` branch has no
reachable counterpart here because every failure point (`suggest_slots`,
`validate_placement`) already catches internally. The summary counts
`total_tasks` and the success-rate denominator from the *requested* ids. -/
def auto_schedule_tasks (w : World) (task_ids : List Nat) (date_range : Int × Int)
    (user_id : Nat) : AutoScheduleSummary × World :=
  let tasks := load_tasks_ordered w task_ids user_id
  let (w1, scheduled_tasks, failed_tasks) :=
    tasks.foldl (auto_schedule_step user_id date_range) (w, [], [])
  ({ scheduled := scheduled_tasks
     failed := failed_tasks
     total_tasks := task_ids.length
     success_rate :=
       if task_ids.isEmpty then 0
       else (scheduled_tasks.length : ℚ) / (task_ids.length : ℚ) }, w1)

/-- Spec-side restatement of the recurrence-matching rule (spec §4.1): a
date is in pattern P iff date ≥ start AND (no end or date ≤ end) AND the
pattern-type test holds. -/
def is_date_in_pattern_spec (date : Int) (pat : RecurrencePattern) : Prop :=
  pat.start_date ≤ date ∧
  (∀ e, pat.end_date = some e → date ≤ e) ∧
  ((pat.pattern_type = "daily" ∧ (date - pat.start_date).emod pat.interval = 0) ∨
   (pat.pattern_type = "weekly" ∧ weekdayOf date ∈ pat.days_of_week ∧
     ((date - pat.start_date).fdiv 7).emod pat.interval = 0) ∨
   (pat.pattern_type = "monthly" ∧
     ((yearOf date - yearOf pat.start_date) * 12 +
       (monthOf date - monthOf pat.start_date)).emod pat.interval = 0) ∨
   (pat.pattern_type = "custom" ∧ weekdayOf date ∈ pat.days_of_week))

/-- Spec-side value the claim about boolean `is_focus_time` conditions says
is fed to the operator: overlap of the span with any focus slot, where a
slot overlaps iff `start < slot.end AND end > slot.start` on HH:MM strings. -/
def span_overlaps_any_focus_slot (start_time end_time : Int)
    (calendar_day : CalendarDayResponse) : Bool :=
  calendar_day.focus_slots.any (fun slot =>
    pyStrLt (formatHM (todOf start_time)) slot.end_time &&
    pyStrLt slot.start_time (formatHM (todOf end_time)))

/-- Spec-side availability containment: the span lies inside a single slot
whose status is available (full containment on HH:MM strings). -/
def availability_contains_span (start_time end_time : Int)
    (calendar_day : CalendarDayResponse) : Prop :=
  ∃ slot ∈ calendar_day.availability_slots,
    slot.status = "available" ∧
    pyStrLe slot.start_time (formatHM (todOf start_time)) = true ∧
    pyStrLe (formatHM (todOf end_time)) slot.end_time = true

/-- Concrete instances used by witnesses and counterexamples. -/
def task0 : Task :=
  { task_id := 1, user_id := 7, title := "t", estimated_duration_minutes := 60,
    fitting_environments := [.HOME], requires_focus := true }

/-- A world holding only `task0` for user 7 (system-default day contexts). -/
def worldPlain : World :=
  { users := [{ user_id := 7 }], tasks := [task0],
    calendar_days := [], day_settings := [], rules := [] }

/-- A task whose only fitting environment mismatches the default day. -/
def taskOutdoors : Task :=
  { task_id := 1, user_id := 7, title := "t", estimated_duration_minutes := 60,
    fitting_environments := [.OUTDOORS] }

/-- A world where validating `taskOutdoors` is blocked (environment). -/
def worldBlocked : World :=
  { users := [{ user_id := 7 }], tasks := [taskOutdoors],
    calendar_days := [], day_settings := [], rules := [] }

/-- A rule whose condition compares an int to a string with `greater_than`,
which raises `TypeError` inside rule evaluation. -/
def badRule : SchedulingRule :=
  { rule_id := 3, user_id := 7, name := "r",
    conditions := [⟨"task_property", "estimated_duration_minutes", "greater_than", .str "x"⟩],
    action := .BLOCK }

/-- A daily override whose focus slot carries a malformed time string, so
`strptime` raises during suggestion generation. -/
def badFocusDay : UserCalendarDay :=
  { calendar_day_id := 11, user_id := 7, date := 0, work_environment := .HOME,
    focus_slots := [⟨"9am", "11:00", "high"⟩], availability_slots := [] }

/-- A world on which both engine entry points hit an internal failure. -/
def worldFaulty : World :=
  { users := [{ user_id := 7 }], tasks := [task0],
    calendar_days := [badFocusDay], day_settings := [], rules := [badRule] }

/-- Day context with one focus slot 09:00-11:00, for the focus-overlap
counterexample. -/
def dayC3 : CalendarDayResponse :=
  { date := 0, work_environment := "home",
    focus_slots := [⟨"09:00", "11:00", "high"⟩],
    availability_slots := [], source := "default" }

/-- A weekly recurrence pattern used as witness input. -/
def pat4 : RecurrencePattern :=
  { pattern_type := "weekly", days_of_week := [3], start_date := 0,
    end_date := some 100, interval := 2 }

/-- Decidable equality on `Except` results, for concrete evaluation. -/
instance {e a : Type} [DecidableEq e] [DecidableEq a] : DecidableEq (Except e a) := fun x y =>
  match x, y with
  | .ok u, .ok v =>
    if h : u = v then .isTrue (by rw [h]) else .isFalse (fun hc => h (Except.ok.inj hc))
  | .error u, .error v =>
    if h : u = v then .isTrue (by rw [h]) else .isFalse (fun hc => h (Except.error.inj hc))
  | .ok _, .error _ => .isFalse (fun hc => by cases hc)
  | .error _, .ok _ => .isFalse (fun hc => by cases hc)

/-- C4: for every date and recurrence pattern, `is_date_in_pattern` returns
true iff date ≥ start_date, date does not exceed the optional end_date, and
the pattern-type test of the spec holds (daily/weekly/monthly interval
arithmetic, weekday membership for weekly/custom). -/
theorem is_date_in_pattern_matches_spec (date : Int) (pat : RecurrencePattern)
    (h : 1 ≤ pat.interval) :
    is_date_in_pattern date pat = true ↔ is_date_in_pattern_spec date pat := by
  rcases pat with ⟨ptype, dows, sd, ed, iv⟩
  cases ed with
  | none =>
    simp only [is_date_in_pattern, is_date_in_pattern_spec]
    split_ifs <;>
      simp_all [beq_iff_eq, List.isEmpty_iff, add_sub_assoc]
  | some e =>
    simp only [is_date_in_pattern, is_date_in_pattern_spec]
    split_ifs <;>
      simp_all [beq_iff_eq, List.isEmpty_iff, add_sub_assoc]

/-- Witness for C4 at a concrete weekly pattern and date. -/
theorem is_date_in_pattern_matches_spec_witness :
    1 ≤ pat4.interval ∧
    (is_date_in_pattern 14 pat4 = true ↔ is_date_in_pattern_spec 14 pat4) :=
  ⟨by decide, is_date_in_pattern_matches_spec 14 pat4 (by decide)⟩

/-- The environment-bonus condition of the score: the Boolean guard pair of
the code equals plain membership of the day environment among the task
environment values. -/
lemma env_condition_iff (envs : List WorkEnvironmentEnum) (x : String) :
    ((!envs.isEmpty && (envs.map (fun e => e.value)).contains x) = true) ↔
      x ∈ envs.map (fun e => e.value) := by
  cases envs <;> simp

/-- A nonemptiness guard conjoined with an existential over members of the
same list is redundant. -/
lemma ne_nil_and_exists_iff {α : Type} (l : List α) (P : α → Prop) :
    (¬l = [] ∧ ∃ a ∈ l, P a) ↔ (∃ a ∈ l, P a) := by
  constructor
  · exact fun h => h.2
  · rintro ⟨a, ha, hp⟩
    refine ⟨fun hnil => ?_, ⟨a, ha, hp⟩⟩
    subst hnil
    cases ha

set_option maxHeartbeats 2000000 in
/-- C5: the slot score is 0.5, plus 0.3 for a required-focus task whose
candidate span sits inside a focus slot, plus 0.2 when the day environment
is among the fitting environments of the task (no bonus when none are declared),
plus 0.2 for URGENT or 0.1 for HIGH priority, plus 0.2 when the start is at
most one day before the deadline else 0.1 when at most three days before
it, capped at 1.0. -/
theorem calculate_slot_score_spec (task : Task) (calendar_day : CalendarDayResponse)
    (start_time end_time : Int) :
    calculate_slot_score task calendar_day start_time end_time =
      min (0.5
        + (if task.requires_focus = true ∧
              is_within_focus_time start_time end_time calendar_day = true then (0.3 : ℚ) else 0)
        + (if calendar_day.work_environment ∈
              task.fitting_environments.map (fun e => e.value) then (0.2 : ℚ) else 0)
        + (if task.priority = some .URGENT then (0.2 : ℚ)
           else if task.priority = some .HIGH then 0.1 else 0)
        + (match task.deadline with
           | some deadline =>
             if (deadline - start_time).fdiv minutesPerDay ≤ 1 then (0.2 : ℚ)
             else if (deadline - start_time).fdiv minutesPerDay ≤ 3 then 0.1 else 0
           | Option.none => (0 : ℚ))) 1 := by
  rcases hpri : task.priority with _ | p
  case' some => rcases p
  all_goals rcases hdl : task.deadline with _ | deadline
  all_goals unfold calculate_slot_score
  all_goals simp [hpri, hdl, PriorityEnum.value, Bool.and_eq_true, env_condition_iff,
    ne_nil_and_exists_iff]
  all_goals split_ifs <;> norm_num

/-- C3 counterexample: for the span 08:00-10:00 and a focus slot
09:00-11:00, the span overlaps the slot (the value the claim says is fed to
the operator, making the condition true), yet the code feeds the
containment value and evaluates the boolean `is_focus_time` condition to
false. -/
theorem is_focus_time_boolean_uses_overlap_false :
    span_overlaps_any_focus_slot 480 600 dayC3 = true ∧
    apply_operator (.bool (span_overlaps_any_focus_slot 480 600 dayC3)) "equals"
      (PyVal.bool true) = .ok true ∧
    evaluate_time_slot_condition dayC3 480 600 "is_focus_time" "equals"
      (PyVal.bool true) = .ok false :=
  ⟨by decide, by decide, by decide⟩

/-- C3 amended: for a boolean expected value, the actual value fed to the
operator is whether the proposed span is fully contained in a single focus
slot (`slot.start ≤ start AND end ≤ slot.end` on HH:MM strings), not
overlap. -/
theorem is_focus_time_boolean_uses_containment (calendar_day : CalendarDayResponse)
    (start_time end_time : Int) (operator : String) (b : Bool) :
    evaluate_time_slot_condition calendar_day start_time end_time "is_focus_time"
        operator (.bool b) =
      apply_operator (.bool (is_within_focus_time start_time end_time calendar_day))
        operator (.bool b) ∧
    (is_within_focus_time start_time end_time calendar_day = true ↔
      ∃ slot ∈ calendar_day.focus_slots,
        pyStrLe slot.start_time (formatHM (todOf start_time)) = true ∧
        pyStrLe (formatHM (todOf end_time)) slot.end_time = true) := by
  constructor
  · rfl
  · unfold is_within_focus_time
    by_cases h : calendar_day.focus_slots.isEmpty = true
    · rw [if_pos h]
      rw [List.isEmpty_iff] at h
      simp [h]
    · rw [if_neg h]
      simp [List.any_eq_true]

/-- Field projections of `finalize_validation`: every branch carries the
accumulated lists through unchanged. -/
lemma finalize_validation_fields (warnings : List WarningMsg)
    (block_reasons : List BlockReason) (rule_evaluations : List RuleEvaluationResult)
    (suggestions : List SuggestionSlot) :
    (finalize_validation warnings block_reasons rule_evaluations suggestions).block_reasons
        = block_reasons ∧
    (finalize_validation warnings block_reasons rule_evaluations suggestions).warnings
        = warnings ∧
    (finalize_validation warnings block_reasons rule_evaluations suggestions).rule_evaluations
        = rule_evaluations := by
  unfold finalize_validation
  split_ifs <;> exact ⟨rfl, rfl, rfl⟩

/-- Status computation of `finalize_validation`, stated over the
accumulated lists. -/
lemma finalize_validation_status (ws : List WarningMsg) (bs : List BlockReason)
    (evals : List RuleEvaluationResult) (sg : List SuggestionSlot) :
    (bs ≠ [] → (finalize_validation ws bs evals sg).validation_result = .BLOCKED ∧
      (finalize_validation ws bs evals sg).is_valid = false) ∧
    (bs = [] → (ws ≠ [] ∨ ∃ ev ∈ evals, ev.triggered = true ∧ ev.action = .WARN) →
      (finalize_validation ws bs evals sg).validation_result = .WARNED ∧
      (finalize_validation ws bs evals sg).is_valid = true) ∧
    (bs = [] → ws = [] → (¬∃ ev ∈ evals, ev.triggered = true ∧ ev.action = .WARN) →
      (finalize_validation ws bs evals sg).validation_result = .ALLOWED ∧
      (finalize_validation ws bs evals sg).is_valid = true) := by
  unfold finalize_validation
  split_ifs with h1 h2 <;>
    simp_all [List.isEmpty_iff, List.any_eq_true, Bool.and_eq_true, beq_iff_eq] <;>
    aesop

/-- C1: `validate_placement` returns BLOCKED with `is_valid = false`
whenever at least one block reason was accumulated; otherwise WARNED with
`is_valid = true` when any warning was accumulated or any triggered rule
evaluation carries action WARN; otherwise ALLOWED with `is_valid = true`. -/
theorem validate_placement_final_status (w : World) (task_id : Nat)
    (start_time end_time : Int) (user_id : Nat) :
    ((validate_placement w task_id start_time end_time user_id).block_reasons ≠ [] →
      (validate_placement w task_id start_time end_time user_id).validation_result = .BLOCKED ∧
      (validate_placement w task_id start_time end_time user_id).is_valid = false) ∧
    ((validate_placement w task_id start_time end_time user_id).block_reasons = [] →
      ((validate_placement w task_id start_time end_time user_id).warnings ≠ [] ∨
        ∃ ev ∈ (validate_placement w task_id start_time end_time user_id).rule_evaluations,
          ev.triggered = true ∧ ev.action = .WARN) →
      (validate_placement w task_id start_time end_time user_id).validation_result = .WARNED ∧
      (validate_placement w task_id start_time end_time user_id).is_valid = true) ∧
    ((validate_placement w task_id start_time end_time user_id).block_reasons = [] →
      (validate_placement w task_id start_time end_time user_id).warnings = [] →
      (¬∃ ev ∈ (validate_placement w task_id start_time end_time user_id).rule_evaluations,
          ev.triggered = true ∧ ev.action = .WARN) →
      (validate_placement w task_id start_time end_time user_id).validation_result = .ALLOWED ∧
      (validate_placement w task_id start_time end_time user_id).is_valid = true) := by
  unfold validate_placement
  cases hcore : validate_placement_core w task_id start_time end_time user_id with
  | error e =>
    refine ⟨fun _ => ⟨rfl, rfl⟩, fun h => absurd h (by simp), fun h => absurd h (by simp)⟩
  | ok result =>
    unfold validate_placement_core at hcore
    cases hft : findTask w task_id user_id with
    | none =>
      rw [hft] at hcore
      injection hcore with hres
      subst hres
      refine ⟨fun _ => ⟨rfl, rfl⟩, fun h => absurd h (by simp), fun h => absurd h (by simp)⟩
    | some task =>
      rw [hft] at hcore
      simp only [bind, Except.bind] at hcore
      cases hr : evaluate_rules w task
          (resolveContextWithFallback w user_id (dateOf start_time))
          start_time end_time user_id with
      | error e => rw [hr] at hcore; cases hcore
      | ok evals =>
        rw [hr] at hcore
        dsimp only at hcore
        rcases hpra : process_rule_actions w task start_time user_id evals with
          ⟨rule_blocks, rule_warns, accumulated⟩
        rw [hpra] at hcore
        dsimp only at hcore
        injection hcore with hres
        subst hres
        dsimp only
        rw [(finalize_validation_fields _ _ _ _).1, (finalize_validation_fields _ _ _ _).2.1,
          (finalize_validation_fields _ _ _ _).2.2]
        exact finalize_validation_status _ _ _ _

/-- Witness for C1 at a world whose environment check blocks. -/
theorem validate_placement_final_status_witness :
    (validate_placement worldBlocked 1 570 630 7).block_reasons ≠ [] ∧
    (validate_placement worldBlocked 1 570 630 7).validation_result = .BLOCKED ∧
    (validate_placement worldBlocked 1 570 630 7).is_valid = false :=
  ⟨by decide, (validate_placement_final_status worldBlocked 1 570 630 7).1 (by decide)⟩

/-- Merging layers never changes the date of the produced context. -/
lemma merge_day_contexts_date (base_context : BaseDayContext) (us : SettingsDict)
    (ov : Option DailyOverride) (d : Int) :
    (merge_day_contexts base_context us ov d).date = d := by
  unfold merge_day_contexts
  rcases us with ⟨uwe, ufs, uav⟩
  dsimp only
  cases uwe <;> cases ufs <;> cases uav <;> cases ov <;> rfl

/-- The dates of the generated contexts are exactly the loop days. -/
lemma generate_day_contexts_map_date (user_id : Nat) (s e : Int) (w : World) :
    (generate_day_contexts_for_range user_id s e w).map (fun c => c.date) = rangeDays s e := by
  unfold generate_day_contexts_for_range
  rw [List.map_map]
  conv_rhs => rw [← List.map_id (rangeDays s e)]
  refine List.map_congr_left (fun d _ => ?_)
  dsimp only [Function.comp, id]
  cases (w.calendar_days.filter (fun cd => cd.user_id == user_id && cd.date == d)).head? <;>
    simp [merge_day_contexts_date]

/-- C10: over an inclusive range with start ≤ end, the day-context resolver
yields exactly one context per day in ascending date order; a single-day
range always yields a non-empty list, so the fallback branch that
synthesizes a context from the stored default environment is never taken. -/
theorem generate_day_contexts_cover_range (user_id : Nat) (s e : Int) (w : World)
    (h : s ≤ e) :
    ((generate_day_contexts_for_range user_id s e w).map (fun c => c.date) = rangeDays s e) ∧
    (generate_day_contexts_for_range user_id s e w).length = (e - s).toNat + 1 ∧
    List.Pairwise (fun a b => a < b)
      ((generate_day_contexts_for_range user_id s e w).map (fun c => c.date)) ∧
    (∀ d, ∃ c rest, generate_day_contexts_for_range user_id d d w = c :: rest ∧
      resolveContextWithFallback w user_id d = c) := by
  refine ⟨generate_day_contexts_map_date user_id s e w, ?_, ?_, ?_⟩
  · have hlen := congrArg List.length (generate_day_contexts_map_date user_id s e w)
    rw [List.length_map] at hlen
    rw [hlen]
    unfold rangeDays
    rw [List.length_map, List.length_range]
    simp [h]
  · rw [generate_day_contexts_map_date user_id s e w]
    unfold rangeDays
    have hr : List.Pairwise (fun a b : Nat => a < b)
        (List.range (if s ≤ e then (e - s).toNat + 1 else 0)) := List.pairwise_lt_range _
    exact List.Pairwise.map _ (fun a b hab => by omega) hr
  · intro d
    have hone : rangeDays d d = [d] := by
      unfold rangeDays
      rw [if_pos (le_refl d), sub_self]
      rw [show (Int.toNat 0 + 1) = 1 from rfl]
      rw [show List.range 1 = [0] from rfl]
      simp
    have hmap := generate_day_contexts_map_date user_id d d w
    rw [hone] at hmap
    cases hgen : generate_day_contexts_for_range user_id d d w with
    | nil => rw [hgen] at hmap; cases hmap
    | cons c rest =>
      rw [hgen] at hmap
      cases rest with
      | nil =>
        refine ⟨c, [], rfl, ?_⟩
        unfold resolveContextWithFallback
        rw [hgen]
      | cons c2 r2 => simp at hmap

/-- Witness for C10 over a concrete three-day range. -/
theorem generate_day_contexts_cover_range_witness :
    ((0 : Int) ≤ 2) ∧
    (((generate_day_contexts_for_range 7 0 2 worldPlain).map (fun c => c.date)
        = rangeDays 0 2) ∧
      (generate_day_contexts_for_range 7 0 2 worldPlain).length = ((2 : Int) - 0).toNat + 1 ∧
      List.Pairwise (fun a b => a < b)
        ((generate_day_contexts_for_range 7 0 2 worldPlain).map (fun c => c.date)) ∧
      (∀ d, ∃ c rest, generate_day_contexts_for_range 7 d d worldPlain = c :: rest ∧
        resolveContextWithFallback worldPlain 7 d = c)) :=
  ⟨by decide, generate_day_contexts_cover_range 7 0 2 worldPlain (by decide)⟩

/-- C8: when the body of `validate_placement` fails internally, the
exception is converted to a BLOCKED result with a diagnostic reason, and
when the body of `suggest_slots` fails internally the result is the empty
suggestion list; neither boundary re-raises. -/
theorem engine_boundaries_fail_closed (w : World) (task_id : Nat)
    (start_time end_time : Int) (user_id : Nat) (date_range : Int × Int)
    (e1 e2 : String)
    (h1 : validate_placement_core w task_id start_time end_time user_id = .error e1)
    (h2 : suggest_slots_core w task_id date_range user_id = .error e2) :
    validate_placement w task_id start_time end_time user_id =
      { is_valid := false, validation_result := .BLOCKED,
        block_reasons := [.validationError e1] } ∧
    suggest_slots w task_id date_range user_id = [] := by
  unfold validate_placement suggest_slots
  rw [h1, h2]
  exact ⟨rfl, rfl⟩

/-- Witness for C8 at a world where rule evaluation raises `TypeError` and
suggestion generation raises `ValueError` from `strptime`. -/
theorem engine_boundaries_fail_closed_witness :
    validate_placement_core worldFaulty 1 570 630 7 =
      .error "TypeError: unsupported comparison between operand types" ∧
    suggest_slots_core worldFaulty 1 (0, 1439) 7 =
      .error "ValueError: time data does not match format" ∧
    validate_placement worldFaulty 1 570 630 7 =
      { is_valid := false, validation_result := .BLOCKED,
        block_reasons :=
          [.validationError "TypeError: unsupported comparison between operand types"] } ∧
    suggest_slots worldFaulty 1 (0, 1439) 7 = [] :=
  ⟨by decide, by decide,
    (engine_boundaries_fail_closed worldFaulty 1 570 630 7 (0, 1439)
      "TypeError: unsupported comparison between operand types"
      "ValueError: time data does not match format" (by decide) (by decide)).1,
    (engine_boundaries_fail_closed worldFaulty 1 570 630 7 (0, 1439)
      "TypeError: unsupported comparison between operand types"
      "ValueError: time data does not match format" (by decide) (by decide)).2⟩

/-- The relation `deadline ASC NULLS LAST` is total. -/
lemma deadlineLe_total (x y : Option Int) :
    deadlineLeNullsLast x y = true ∨ deadlineLeNullsLast y x = true := by
  cases x <;> cases y <;> simp [deadlineLeNullsLast] <;> omega

/-- The relation `deadline ASC NULLS LAST` is transitive. -/
lemma deadlineLe_trans (x y z : Option Int) (h1 : deadlineLeNullsLast x y = true)
    (h2 : deadlineLeNullsLast y z = true) : deadlineLeNullsLast x z = true := by
  cases x <;> cases y <;> cases z <;> simp_all [deadlineLeNullsLast] <;> omega

/-- The SQL two-key comparison, unfolded to the claim-level order: priority
position descending, deadline ascending (nulls last) on ties. -/
lemma autoOrderLe_iff (a b : Task) :
    autoOrderLe a b = true ↔
      (priorityKey b.priority ≤ priorityKey a.priority ∧
        (priorityKey a.priority = priorityKey b.priority →
          deadlineLeNullsLast a.deadline b.deadline = true)) := by
  unfold autoOrderLe
  simp only [Bool.or_eq_true, Bool.and_eq_true, decide_eq_true_eq, beq_iff_eq]
  constructor
  · rintro (h | ⟨h1, h2⟩)
    · exact ⟨Nat.le_of_lt h, fun he => absurd h (by omega)⟩
    · exact ⟨Nat.le_of_eq h1.symm, fun _ => h2⟩
  · rintro ⟨h1, h2⟩
    by_cases he : priorityKey a.priority = priorityKey b.priority
    · exact Or.inr ⟨he, h2 he⟩
    · exact Or.inl (by omega)

/-- C7: the batch loaded by `auto_schedule_tasks` is processed in order of
priority descending (URGENT before HIGH before MEDIUM before LOW, with SQL
NULLS FIRST for a null priority) and, among equal priorities, deadline
ascending with tasks lacking a deadline after those that have one. -/
theorem auto_schedule_processing_order (w : World) (task_ids : List Nat) (user_id : Nat) :
    List.Pairwise (fun a b =>
      priorityKey b.priority ≤ priorityKey a.priority ∧
      (priorityKey a.priority = priorityKey b.priority →
        deadlineLeNullsLast a.deadline b.deadline = true))
      (load_tasks_ordered w task_ids user_id) := by
  unfold load_tasks_ordered
  haveI : IsTotal Task (fun a b => autoOrderLe a b = true) := ⟨by
    intro a b
    rw [autoOrderLe_iff, autoOrderLe_iff]
    by_cases he : priorityKey a.priority = priorityKey b.priority
    · rcases deadlineLe_total a.deadline b.deadline with hd | hd
      · exact Or.inl ⟨he.ge, fun _ => hd⟩
      · exact Or.inr ⟨he.le, fun _ => hd⟩
    · rcases Nat.lt_or_ge (priorityKey a.priority) (priorityKey b.priority) with h | h
      · exact Or.inr ⟨Nat.le_of_lt h, fun hh => (he hh.symm).elim⟩
      · exact Or.inl ⟨h, fun hh => (he hh).elim⟩⟩
  haveI : IsTrans Task (fun a b => autoOrderLe a b = true) := ⟨by
    intro a b c hab hbc
    rw [autoOrderLe_iff] at hab hbc ⊢
    obtain ⟨hab1, hab2⟩ := hab
    obtain ⟨hbc1, hbc2⟩ := hbc
    refine ⟨le_trans hbc1 hab1, fun he => ?_⟩
    have h1 : priorityKey a.priority = priorityKey b.priority := by omega
    have h2 : priorityKey b.priority = priorityKey c.priority := by omega
    exact deadlineLe_trans _ _ _ (hab2 h1) (hbc2 h2)⟩
  have hs := List.sorted_insertionSort (fun a b : Task => autoOrderLe a b = true)
    (w.tasks.filter (fun t => task_ids.contains t.task_id && t.user_id == user_id))
  exact hs.imp (fun h => (autoOrderLe_iff _ _).mp h)

/-- Each auto-schedule iteration adds exactly one summary entry. -/
lemma auto_schedule_step_counts (user_id : Nat) (date_range : Int × Int)
    (acc : World × List ScheduledTaskInfo × List FailedTaskInfo) (task : Task) :
    (auto_schedule_step user_id date_range acc task).2.1.length +
      (auto_schedule_step user_id date_range acc task).2.2.length =
    acc.2.1.length + acc.2.2.length + 1 := by
  rcases acc with ⟨w0, s0, f0⟩
  unfold auto_schedule_step
  dsimp only
  cases hsug : suggest_slots w0 task.task_id date_range user_id with
  | nil => simp; omega
  | cons best rest =>
    dsimp only
    by_cases hv : (validate_placement w0 task.task_id best.start_time best.end_time
        user_id).is_valid = true
    · rw [if_pos hv]; simp; omega
    · rw [if_neg hv]; simp; omega

/-- Each auto-schedule entry comes from the accumulator or from one of the
iterated tasks. -/
lemma auto_schedule_step_ids (user_id : Nat) (date_range : Int × Int)
    (acc : World × List ScheduledTaskInfo × List FailedTaskInfo) (task : Task) :
    (∀ entry ∈ (auto_schedule_step user_id date_range acc task).2.1,
      entry ∈ acc.2.1 ∨ entry.task_id = task.task_id) ∧
    (∀ entry ∈ (auto_schedule_step user_id date_range acc task).2.2,
      entry ∈ acc.2.2 ∨ entry.task_id = task.task_id) := by
  rcases acc with ⟨w0, s0, f0⟩
  unfold auto_schedule_step
  dsimp only
  cases hsug : suggest_slots w0 task.task_id date_range user_id with
  | nil =>
    dsimp only
    refine ⟨fun entry he => Or.inl he, fun entry he => ?_⟩
    rcases List.mem_append.mp he with h | h
    · exact Or.inl h
    · rcases List.mem_singleton.mp h with rfl
      exact Or.inr rfl
  | cons best rest =>
    dsimp only
    by_cases hv : (validate_placement w0 task.task_id best.start_time best.end_time
        user_id).is_valid = true
    · rw [if_pos hv]
      refine ⟨fun entry he => ?_, fun entry he => Or.inl he⟩
      rcases List.mem_append.mp he with h | h
      · exact Or.inl h
      · rcases List.mem_singleton.mp h with rfl
        exact Or.inr rfl
    · rw [if_neg hv]
      refine ⟨fun entry he => Or.inl he, fun entry he => ?_⟩
      rcases List.mem_append.mp he with h | h
      · exact Or.inl h
      · rcases List.mem_singleton.mp h with rfl
        exact Or.inr rfl

/-- Summary sizes over the whole auto-schedule pass. -/
lemma auto_schedule_fold_counts (user_id : Nat) (date_range : Int × Int) :
    ∀ (tasks : List Task) (acc : World × List ScheduledTaskInfo × List FailedTaskInfo),
      (tasks.foldl (auto_schedule_step user_id date_range) acc).2.1.length +
        (tasks.foldl (auto_schedule_step user_id date_range) acc).2.2.length =
      acc.2.1.length + acc.2.2.length + tasks.length := by
  intro tasks
  induction tasks with
  | nil => intro acc; simp
  | cons t ts ih =>
    intro acc
    rw [List.foldl_cons, ih (auto_schedule_step user_id date_range acc t)]
    have := auto_schedule_step_counts user_id date_range acc t
    simp only [List.length_cons]
    omega

/-- Entry origins over the whole auto-schedule pass. -/
lemma auto_schedule_fold_ids (user_id : Nat) (date_range : Int × Int) :
    ∀ (tasks : List Task) (acc : World × List ScheduledTaskInfo × List FailedTaskInfo),
      (∀ entry ∈ (tasks.foldl (auto_schedule_step user_id date_range) acc).2.1,
        entry ∈ acc.2.1 ∨ ∃ t ∈ tasks, entry.task_id = t.task_id) ∧
      (∀ entry ∈ (tasks.foldl (auto_schedule_step user_id date_range) acc).2.2,
        entry ∈ acc.2.2 ∨ ∃ t ∈ tasks, entry.task_id = t.task_id) := by
  intro tasks
  induction tasks with
  | nil => intro acc; exact ⟨fun e he => Or.inl he, fun e he => Or.inl he⟩
  | cons t ts ih =>
    intro acc
    rw [List.foldl_cons]
    obtain ⟨ih1, ih2⟩ := ih (auto_schedule_step user_id date_range acc t)
    obtain ⟨hs1, hs2⟩ := auto_schedule_step_ids user_id date_range acc t
    constructor
    · intro entry he
      rcases ih1 entry he with h | ⟨u, hu, hid⟩
      · rcases hs1 entry h with h2 | h2
        · exact Or.inl h2
        · exact Or.inr ⟨t, List.mem_cons_self t ts, h2⟩
      · exact Or.inr ⟨u, List.mem_cons_of_mem t hu, hid⟩
    · intro entry he
      rcases ih2 entry he with h | ⟨u, hu, hid⟩
      · rcases hs2 entry h with h2 | h2
        · exact Or.inl h2
        · exact Or.inr ⟨t, List.mem_cons_self t ts, h2⟩
      · exact Or.inr ⟨u, List.mem_cons_of_mem t hu, hid⟩

/-- Decoding membership in the loaded batch. -/
lemma load_tasks_ordered_mem (w : World) (task_ids : List Nat) (user_id : Nat)
    (t : Task) (h : t ∈ load_tasks_ordered w task_ids user_id) :
    t ∈ w.tasks ∧ t.task_id ∈ task_ids ∧ t.user_id = user_id := by
  unfold load_tasks_ordered at h
  have hp := List.perm_insertionSort (fun a b : Task => autoOrderLe a b = true)
    (w.tasks.filter (fun u => task_ids.contains u.task_id && u.user_id == user_id))
  have hm := hp.mem_iff.mp h
  rw [List.mem_filter] at hm
  obtain ⟨hmem, hpred⟩ := hm
  rw [Bool.and_eq_true] at hpred
  refine ⟨hmem, ?_, ?_⟩
  · have := hpred.1
    simpa using this
  · have := hpred.2
    simpa using this

/-- With one requested id matching no task of the user, the loaded batch is
strictly smaller than the request. -/
lemma load_tasks_ordered_length_lt (w : World) (task_ids : List Nat) (user_id : Nat)
    (tid : Nat) (hmem : tid ∈ task_ids)
    (hnone : ∀ t ∈ w.tasks, ¬(t.task_id = tid ∧ t.user_id = user_id))
    (hnodup : (w.tasks.map (fun t => t.task_id)).Nodup) :
    (load_tasks_ordered w task_ids user_id).length < task_ids.length := by
  classical
  unfold load_tasks_ordered
  rw [(List.perm_insertionSort _ _).length_eq]
  have hsub : (w.tasks.filter
      (fun u => task_ids.contains u.task_id && u.user_id == user_id)).Sublist w.tasks :=
    List.filter_sublist _
  have hnd : ((w.tasks.filter
      (fun u => task_ids.contains u.task_id && u.user_id == user_id)).map
        (fun t => t.task_id)).Nodup :=
    List.Nodup.sublist (hsub.map (fun t => t.task_id)) hnodup
  have hids : ∀ x ∈ (w.tasks.filter
      (fun u => task_ids.contains u.task_id && u.user_id == user_id)).map
        (fun t => t.task_id), x ∈ task_ids ∧ x ≠ tid := by
    intro x hx
    rcases List.mem_map.mp hx with ⟨t, ht, rfl⟩
    rw [List.mem_filter, Bool.and_eq_true] at ht
    obtain ⟨htm, hp1, hp2⟩ := ht
    refine ⟨by simpa using hp1, fun heq => ?_⟩
    exact hnone t htm ⟨heq, by simpa using hp2⟩
  have hlen : (w.tasks.filter
      (fun u => task_ids.contains u.task_id && u.user_id == user_id)).length =
      ((w.tasks.filter
        (fun u => task_ids.contains u.task_id && u.user_id == user_id)).map
          (fun t => t.task_id)).length := (List.length_map _ _).symm
  rw [hlen, ← List.toFinset_card_of_nodup hnd]
  have hsubset : ((w.tasks.filter
      (fun u => task_ids.contains u.task_id && u.user_id == user_id)).map
        (fun t => t.task_id)).toFinset ⊆ task_ids.toFinset.erase tid := by
    intro x hx
    rw [List.mem_toFinset] at hx
    obtain ⟨hin, hne⟩ := hids x hx
    exact Finset.mem_erase.mpr ⟨hne, List.mem_toFinset.mpr hin⟩
  have h1 := Finset.card_le_card hsubset
  have h2 := Finset.card_erase_lt_of_mem (List.mem_toFinset.mpr hmem)
  have h3 := task_ids.toFinset_card_le
  omega

/-- C9: a requested task id with no matching task of the user appears in
neither summary list, yet is still counted in `total_tasks` and in the
denominator of `success_rate`, so the two lists together are strictly
shorter than `total_tasks`. -/
theorem auto_schedule_unknown_id_uncounted (w : World) (task_ids : List Nat)
    (date_range : Int × Int) (user_id : Nat) (tid : Nat)
    (hmem : tid ∈ task_ids)
    (hnone : ∀ t ∈ w.tasks, ¬(t.task_id = tid ∧ t.user_id = user_id))
    (hnodup : (w.tasks.map (fun t => t.task_id)).Nodup) :
    (∀ entry ∈ (auto_schedule_tasks w task_ids date_range user_id).1.scheduled,
      entry.task_id ≠ tid) ∧
    (∀ entry ∈ (auto_schedule_tasks w task_ids date_range user_id).1.failed,
      entry.task_id ≠ tid) ∧
    (auto_schedule_tasks w task_ids date_range user_id).1.total_tasks = task_ids.length ∧
    (auto_schedule_tasks w task_ids date_range user_id).1.success_rate =
      (((auto_schedule_tasks w task_ids date_range user_id).1.scheduled.length : ℚ) /
        (task_ids.length : ℚ)) ∧
    (auto_schedule_tasks w task_ids date_range user_id).1.scheduled.length +
        (auto_schedule_tasks w task_ids date_range user_id).1.failed.length <
      (auto_schedule_tasks w task_ids date_range user_id).1.total_tasks := by
  have hner : ∀ u ∈ load_tasks_ordered w task_ids user_id, u.task_id ≠ tid := by
    intro u hu heq
    obtain ⟨humem, _, huser⟩ := load_tasks_ordered_mem w task_ids user_id u hu
    exact hnone u humem ⟨heq, huser⟩
  unfold auto_schedule_tasks
  dsimp only
  rcases hfold : (load_tasks_ordered w task_ids user_id).foldl
      (auto_schedule_step user_id date_range) (w, [], []) with ⟨w1, sched, failed⟩
  dsimp only
  obtain ⟨hid1, hid2⟩ := auto_schedule_fold_ids user_id date_range
    (load_tasks_ordered w task_ids user_id) (w, [], [])
  rw [hfold] at hid1 hid2
  have hcount := auto_schedule_fold_counts user_id date_range
    (load_tasks_ordered w task_ids user_id) (w, [], [])
  rw [hfold] at hcount
  dsimp only at hid1 hid2 hcount
  simp only [List.length_nil, Nat.zero_add, Nat.add_zero] at hcount
  have hlt := load_tasks_ordered_length_lt w task_ids user_id tid hmem hnone hnodup
  have hnotempty : task_ids.isEmpty = false := by
    cases task_ids with
    | nil => cases hmem
    | cons a l => rfl
  refine ⟨?_, ?_, rfl, ?_, ?_⟩
  · intro entry he heq
    rcases hid1 entry he with h | ⟨u, hu, hid⟩
    · cases h
    · exact hner u hu (heq ▸ hid.symm)
  · intro entry he heq
    rcases hid2 entry he with h | ⟨u, hu, hid⟩
    · cases h
    · exact hner u hu (heq ▸ hid.symm)
  · simp [hnotempty]
  · omega

/-- Witness for C9: requesting ids 5 and 1 for a user owning only task 1. -/
theorem auto_schedule_unknown_id_uncounted_witness :
    (5 ∈ ([5, 1] : List Nat)) ∧
    (auto_schedule_tasks worldPlain [5, 1] (0, 1439) 7).1.total_tasks = 2 ∧
    (auto_schedule_tasks worldPlain [5, 1] (0, 1439) 7).1.scheduled.length +
        (auto_schedule_tasks worldPlain [5, 1] (0, 1439) 7).1.failed.length <
      (auto_schedule_tasks worldPlain [5, 1] (0, 1439) 7).1.total_tasks :=
  ⟨by decide,
    (auto_schedule_unknown_id_uncounted worldPlain [5, 1] (0, 1439) 7 5
      (by decide) (by decide) (by decide)).2.2.1,
    (auto_schedule_unknown_id_uncounted worldPlain [5, 1] (0, 1439) 7 5
      (by decide) (by decide) (by decide)).2.2.2.2⟩

/-- The availability check passes iff the day has no availability slots at
all or the span is contained in a single available slot. -/
lemma is_within_availability_iff (start_time end_time : Int)
    (calendar_day : CalendarDayResponse) :
    is_within_availability start_time end_time calendar_day = true ↔
      (calendar_day.availability_slots = [] ∨
        availability_contains_span start_time end_time calendar_day) := by
  unfold is_within_availability availability_contains_span
  by_cases h : calendar_day.availability_slots.isEmpty = true
  · rw [if_pos h]
    rw [List.isEmpty_iff] at h
    simp [h]
  · rw [if_neg h]
    have hne : calendar_day.availability_slots ≠ [] := by
      simpa [List.isEmpty_iff] using h
    simp [List.any_eq_true, Bool.and_eq_true, beq_iff_eq, hne, and_assoc]

/-- Block reasons produced by the rule-action loop are always rule-tagged. -/
lemma rule_action_step_blocks (w : World) (task : Task) (start_time : Int)
    (user_id : Nat) (acc : List BlockReason × List WarningMsg × List SuggestionSlot)
    (evaluation : RuleEvaluationResult) :
    ∀ x ∈ (rule_action_step w task start_time user_id acc evaluation).1,
      x ∈ acc.1 ∨ ∃ n m, x = .fromRule n m := by
  intro x hx
  rcases acc with ⟨bs, ws, sg⟩
  unfold rule_action_step at hx
  dsimp only at hx
  split_ifs at hx <;>
    first
      | exact Or.inl hx
      | (rcases List.mem_append.mp hx with hmem | hmem
         · exact Or.inl hmem
         · rcases List.mem_singleton.mp hmem with rfl
           exact Or.inr ⟨_, _, rfl⟩)

/-- Every block reason accumulated from rule actions is rule-tagged. -/
lemma process_rule_actions_blocks (w : World) (task : Task) (start_time : Int)
    (user_id : Nat) (evals : List RuleEvaluationResult) :
    ∀ x ∈ (process_rule_actions w task start_time user_id evals).1,
      ∃ n m, x = BlockReason.fromRule n m := by
  unfold process_rule_actions
  suffices aux : ∀ (l : List RuleEvaluationResult)
      (acc : List BlockReason × List WarningMsg × List SuggestionSlot),
      (∀ x ∈ acc.1, ∃ n m, x = BlockReason.fromRule n m) →
      ∀ x ∈ (l.foldl (rule_action_step w task start_time user_id) acc).1,
        ∃ n m, x = BlockReason.fromRule n m by
    exact aux evals ([], [], []) (by simp)
  intro l
  induction l with
  | nil => intro acc hacc; simpa using hacc
  | cons e l ih =>
    intro acc hacc
    rw [List.foldl_cons]
    refine ih _ (fun x hx => ?_)
    rcases rule_action_step_blocks w task start_time user_id acc e x hx with h | h
    · exact hacc x h
    · exact h

/-- C2: with the task found and no internal error, the availability block
reason appears (forcing BLOCKED) iff the resolved day has at least one
availability slot and the span is not contained in a single AVAILABLE slot;
a day without availability slots never produces it. -/
theorem availability_block_reason_iff (w : World) (task_id : Nat)
    (start_time end_time : Int) (user_id : Nat) (task : Task) (r : ValidationResult)
    (htask : findTask w task_id user_id = some task)
    (hok : validate_placement_core w task_id start_time end_time user_id = .ok r) :
    ((resolveContextWithFallback w user_id (dateOf start_time)).availability_slots ≠ [] →
      (BlockReason.outsideAvailability ∈ r.block_reasons ↔
        ¬ availability_contains_span start_time end_time
          (resolveContextWithFallback w user_id (dateOf start_time)))) ∧
    ((resolveContextWithFallback w user_id (dateOf start_time)).availability_slots = [] →
      BlockReason.outsideAvailability ∉ r.block_reasons) ∧
    (BlockReason.outsideAvailability ∈ r.block_reasons →
      r.validation_result = .BLOCKED ∧ r.is_valid = false) := by
  unfold validate_placement_core at hok
  rw [htask] at hok
  simp only [bind, Except.bind] at hok
  cases hr : evaluate_rules w task
      (resolveContextWithFallback w user_id (dateOf start_time))
      start_time end_time user_id with
  | error e => rw [hr] at hok; cases hok
  | ok evals =>
    rw [hr] at hok
    dsimp only at hok
    rcases hpra : process_rule_actions w task start_time user_id evals with
      ⟨rule_blocks, rule_warns, accumulated⟩
    rw [hpra] at hok
    dsimp only at hok
    injection hok with hres
    subst hres
    rw [(finalize_validation_fields _ _ _ _).1]
    have hrule : BlockReason.outsideAvailability ∉ rule_blocks := by
      intro hmem
      have := process_rule_actions_blocks w task start_time user_id evals
        BlockReason.outsideAvailability (by rw [hpra]; exact hmem)
      rcases this with ⟨n, m, heq⟩
      cases heq
    have henv : BlockReason.outsideAvailability ∉
        (if (!task.fitting_environments.isEmpty) = true then
          if (!(List.map (fun e => e.value) task.fitting_environments).contains
              (resolveContextWithFallback w user_id (dateOf start_time)).work_environment) = true
          then [BlockReason.envMismatch
              (List.map (fun e => e.value) task.fitting_environments)
              (resolveContextWithFallback w user_id (dateOf start_time)).work_environment]
          else []
        else []) := by
      split_ifs <;> simp
    have hmem_iff : BlockReason.outsideAvailability ∈
        ((if (!task.fitting_environments.isEmpty) = true then
          if (!(List.map (fun e => e.value) task.fitting_environments).contains
              (resolveContextWithFallback w user_id (dateOf start_time)).work_environment) = true
          then [BlockReason.envMismatch
              (List.map (fun e => e.value) task.fitting_environments)
              (resolveContextWithFallback w user_id (dateOf start_time)).work_environment]
          else []
        else []) ++
          (if is_within_availability start_time end_time
              (resolveContextWithFallback w user_id (dateOf start_time)) = true then []
            else [BlockReason.outsideAvailability]) ++ rule_blocks) ↔
        ¬ is_within_availability start_time end_time
          (resolveContextWithFallback w user_id (dateOf start_time)) = true := by
      constructor
      · intro hmem
        rcases List.mem_append.mp hmem with hmem2 | hmem2
        · rcases List.mem_append.mp hmem2 with hmem3 | hmem3
          · exact absurd hmem3 henv
          · intro hw
            rw [if_pos hw] at hmem3
            cases hmem3
        · exact absurd hmem2 hrule
      · intro hw
        refine List.mem_append.mpr (Or.inl (List.mem_append.mpr (Or.inr ?_)))
        rw [if_neg hw]
        exact List.mem_singleton.mpr rfl
    refine ⟨?_, ?_, ?_⟩
    · intro hne
      rw [hmem_iff]
      rw [is_within_availability_iff]
      simp [hne]
    · intro hnil
      rw [hmem_iff]
      intro hw
      exact hw ((is_within_availability_iff start_time end_time _).mpr (Or.inl hnil))
    · intro hmem
      exact (finalize_validation_status _ _ _ _).1 (List.ne_nil_of_mem hmem)

/-- Witness for C2 at the default availability slot 09:00-17:00 and the
span 08:00-09:00. -/
theorem availability_block_reason_iff_witness :
    findTask worldPlain 1 7 = some task0 ∧
    (resolveContextWithFallback worldPlain 7 (dateOf 480)).availability_slots ≠ [] ∧
    (BlockReason.outsideAvailability ∈
        (validate_placement worldPlain 1 480 540 7).block_reasons ↔
      ¬ availability_contains_span 480 540
        (resolveContextWithFallback worldPlain 7 (dateOf 480))) :=
  ⟨by decide, by decide,
    (availability_block_reason_iff worldPlain 1 480 540 7 task0
      (validate_placement worldPlain 1 480 540 7) (by decide) (by decide)).1 (by decide)⟩

/-- An emitted suggestion certifies its window guard and front placement. -/
lemma emit_suggestion_spec (task : Task) (calendar_day : CalendarDayResponse)
    (window_start window_end : Int) (reason : SuggestReason) (cd_id : Option Nat)
    (s : SuggestionSlot)
    (h : emit_suggestion task calendar_day window_start window_end reason cd_id = some s) :
    task.estimated_duration_minutes ≤ window_end - window_start ∧
    s.start_time = window_start ∧
    s.end_time = s.start_time + task.estimated_duration_minutes := by
  unfold emit_suggestion at h
  dsimp only at h
  split_ifs at h with hg
  · injection h with h
    subst h
    exact ⟨hg, rfl, rfl⟩

/-- Preservation through a monadic fold in `Except`. -/
lemma foldlM_except_preserve {β : Type}
    (step : List SuggestionSlot → β → Except String (List SuggestionSlot))
    (P : SuggestionSlot → Prop)
    (hstep : ∀ acc b res, step acc b = .ok res → ∀ s ∈ res, s ∈ acc ∨ P s) :
    ∀ (l : List β) (acc res), List.foldlM step acc l = .ok res →
      (∀ s ∈ acc, P s) → ∀ s ∈ res, P s := by
  intro l
  induction l with
  | nil =>
    intro acc res h hacc
    rw [List.foldlM_nil] at h
    injection h with h
    subst h
    exact hacc
  | cons b l ih =>
    intro acc res h hacc
    rw [List.foldlM_cons] at h
    simp only [bind, Except.bind] at h
    cases hs : step acc b with
    | error e => rw [hs] at h; cases h
    | ok acc2 =>
      rw [hs] at h
      refine ih acc2 res h (fun s hsm => ?_)
      rcases hstep acc b acc2 hs s hsm with hin | hp
      · exact hacc s hin
      · exact hp

/-- Focus-pass iterations only append front-placed suggestions. -/
lemma focus_slot_step_mem (task : Task) (calendar_day : CalendarDayResponse)
    (date : Int) (acc : List SuggestionSlot) (slot : FocusSlot)
    (res : List SuggestionSlot)
    (h : focus_slot_step task calendar_day date acc slot = .ok res) :
    ∀ s ∈ res, s ∈ acc ∨ s.end_time = s.start_time + task.estimated_duration_minutes := by
  unfold focus_slot_step at h
  split_ifs at h
  · simp only [bind, Except.bind] at h
    cases hp1 : parseHM slot.start_time with
    | error e => rw [hp1] at h; cases h
    | ok v1 =>
      rw [hp1] at h
      dsimp only at h
      cases hp2 : parseHM slot.end_time with
      | error e => rw [hp2] at h; cases h
      | ok v2 =>
        rw [hp2] at h
        dsimp only at h
        cases hemit : emit_suggestion task calendar_day
            (date * minutesPerDay + v1) (date * minutesPerDay + v2)
            (.focusSlot slot.start_time slot.end_time) calendar_day.calendar_day_id with
        | none =>
          rw [hemit] at h
          injection h with h
          subst h
          exact fun s hs => Or.inl hs
        | some su =>
          rw [hemit] at h
          injection h with h
          subst h
          intro s hs
          rcases List.mem_append.mp hs with hm | hm
          · exact Or.inl hm
          · rcases List.mem_singleton.mp hm with rfl
            exact Or.inr (emit_suggestion_spec _ _ _ _ _ _ _ hemit).2.2
  · injection h with h
    subst h
    exact fun s hs => Or.inl hs

/-- Availability-pass iterations only append front-placed suggestions. -/
lemma availability_slot_step_mem (task : Task) (calendar_day : CalendarDayResponse)
    (date : Int) (acc : List SuggestionSlot) (slot : AvailabilitySlot)
    (res : List SuggestionSlot)
    (h : availability_slot_step task calendar_day date acc slot = .ok res) :
    ∀ s ∈ res, s ∈ acc ∨ s.end_time = s.start_time + task.estimated_duration_minutes := by
  unfold availability_slot_step at h
  split_ifs at h
  · simp only [bind, Except.bind] at h
    cases hp1 : parseHM slot.start_time with
    | error e => rw [hp1] at h; cases h
    | ok v1 =>
      rw [hp1] at h
      dsimp only at h
      cases hp2 : parseHM slot.end_time with
      | error e => rw [hp2] at h; cases h
      | ok v2 =>
        rw [hp2] at h
        dsimp only at h
        cases hemit : emit_suggestion task calendar_day
            (date * minutesPerDay + v1) (date * minutesPerDay + v2)
            (.availableTime slot.start_time slot.end_time) calendar_day.calendar_day_id with
        | none =>
          rw [hemit] at h
          injection h with h
          subst h
          exact fun s hs => Or.inl hs
        | some su =>
          rw [hemit] at h
          injection h with h
          subst h
          intro s hs
          rcases List.mem_append.mp hs with hm | hm
          · exact Or.inl hm
          · rcases List.mem_singleton.mp hm with rfl
            exact Or.inr (emit_suggestion_spec _ _ _ _ _ _ _ hemit).2.2
  · injection h with h
    subst h
    exact fun s hs => Or.inl hs
  · injection h with h
    subst h
    exact fun s hs => Or.inl hs

/-- Every suggestion a day generates is placed at the front of its window. -/
lemma generate_day_suggestions_mem (task : Task) (calendar_day : CalendarDayResponse)
    (date : Int) (res : List SuggestionSlot)
    (h : generate_day_suggestions task calendar_day date = .ok res) :
    ∀ s ∈ res, s.end_time = s.start_time + task.estimated_duration_minutes := by
  unfold generate_day_suggestions at h
  by_cases henv : (!task.fitting_environments.isEmpty &&
      !(List.map (fun e => e.value) task.fitting_environments).contains
        calendar_day.work_environment) = true
  · rw [if_pos henv] at h
    injection h with h
    subst h
    intro s hs
    cases hs
  · rw [if_neg henv] at h
    simp only [bind, Except.bind] at h
    have tail : ∀ fs : List SuggestionSlot,
        (∀ s ∈ fs, s.end_time = s.start_time + task.estimated_duration_minutes) →
        ((if (!calendar_day.availability_slots.isEmpty) = true then
            List.foldlM (availability_slot_step task calendar_day date) fs
              calendar_day.availability_slots
          else
            match emit_suggestion task calendar_day (date * minutesPerDay + 540)
                (date * minutesPerDay + 1020) SuggestReason.defaultBusinessHours
                Option.none with
            | some suggestion => pure (fs ++ [suggestion])
            | Option.none => pure fs) = Except.ok res) →
        ∀ s ∈ res, s.end_time = s.start_time + task.estimated_duration_minutes := by
      intro fs hfs htail
      by_cases hav : (!calendar_day.availability_slots.isEmpty) = true
      · rw [if_pos hav] at htail
        exact foldlM_except_preserve _ _
          (availability_slot_step_mem task calendar_day date) _ _ _ htail hfs
      · rw [if_neg hav] at htail
        cases hemit : emit_suggestion task calendar_day (date * minutesPerDay + 540)
            (date * minutesPerDay + 1020) SuggestReason.defaultBusinessHours
            Option.none with
        | none =>
          rw [hemit] at htail
          injection htail with htail
          subst htail
          exact hfs
        | some su =>
          rw [hemit] at htail
          injection htail with htail
          subst htail
          intro s hs
          rcases List.mem_append.mp hs with hm | hm
          · exact hfs s hm
          · rcases List.mem_singleton.mp hm with rfl
            exact (emit_suggestion_spec _ _ _ _ _ _ _ hemit).2.2
    by_cases hfo : (!calendar_day.focus_slots.isEmpty && task.requires_focus) = true
    · rw [if_pos hfo] at h
      cases hfres : List.foldlM (focus_slot_step task calendar_day date) []
          calendar_day.focus_slots with
      | error e => rw [hfres] at h; cases h
      | ok fs =>
        rw [hfres] at h
        dsimp only at h
        exact tail fs (foldlM_except_preserve _ _
          (focus_slot_step_mem task calendar_day date) _ _ _ hfres (by simp)) h
    · rw [if_neg hfo] at h
      simp only [pure, Except.pure] at h
      exact tail [] (by simp) h

/-- The successful suggestion list is the five best of the sorted pool. -/
lemma suggest_slots_core_shape (w : World) (task_id : Nat) (date_range : Int × Int)
    (user_id : Nat) (res : List SuggestionSlot)
    (h : suggest_slots_core w task_id date_range user_id = .ok res) :
    res = [] ∨ ∃ pool, res =
      (List.insertionSort (fun a b : SuggestionSlot => b.score ≤ a.score) pool).take 5 := by
  unfold suggest_slots_core at h
  cases hft : findTask w task_id user_id with
  | none =>
    rw [hft] at h
    injection h with h
    exact Or.inl h.symm
  | some task =>
    rw [hft] at h
    dsimp only at h
    cases hfold : (loopDates date_range.1 date_range.2).foldlM
        (fun acc current_date =>
          generate_day_suggestions task
              (resolveContextWithFallback w user_id (dateOf current_date))
              (dateOf current_date) >>= fun day_suggestions =>
            pure (acc ++ day_suggestions)) ([] : List SuggestionSlot) with
    | error e =>
      rw [hfold] at h
      simp only [bind, Except.bind] at h
      cases h
    | ok pool =>
      rw [hfold] at h
      simp only [bind, Except.bind, pure, Except.pure] at h
      injection h with h
      exact Or.inr ⟨pool, h.symm⟩

/-- Every successful suggestion is placed at the front of its window. -/
lemma suggest_slots_core_mem (w : World) (task_id : Nat) (date_range : Int × Int)
    (user_id : Nat) (task : Task) (res : List SuggestionSlot)
    (htask : findTask w task_id user_id = some task)
    (h : suggest_slots_core w task_id date_range user_id = .ok res) :
    ∀ s ∈ res, s.end_time = s.start_time + task.estimated_duration_minutes := by
  unfold suggest_slots_core at h
  rw [htask] at h
  dsimp only at h
  cases hfold : (loopDates date_range.1 date_range.2).foldlM
      (fun acc current_date =>
        generate_day_suggestions task
            (resolveContextWithFallback w user_id (dateOf current_date))
            (dateOf current_date) >>= fun day_suggestions =>
          pure (acc ++ day_suggestions)) ([] : List SuggestionSlot) with
  | error e =>
    rw [hfold] at h
    simp only [bind, Except.bind] at h
    cases h
  | ok pool =>
    rw [hfold] at h
    simp only [bind, Except.bind, pure, Except.pure] at h
    injection h with h
    subst h
    have hpool : ∀ s ∈ pool, s.end_time = s.start_time + task.estimated_duration_minutes := by
      refine foldlM_except_preserve _ _ ?_ _ _ _ hfold (by simp)
      intro acc cur res2 hstep
      cases hg : generate_day_suggestions task
          (resolveContextWithFallback w user_id (dateOf cur)) (dateOf cur) with
      | error e =>
        rw [hg] at hstep
        simp only [bind, Except.bind] at hstep
        cases hstep
      | ok ds =>
        rw [hg] at hstep
        simp only [bind, Except.bind, pure, Except.pure] at hstep
        injection hstep with hstep
        subst hstep
        intro s hs
        rcases List.mem_append.mp hs with hm | hm
        · exact Or.inl hm
        · exact Or.inr (generate_day_suggestions_mem task _ _ ds hg s hm)
    intro s hs
    have hs2 := List.mem_of_mem_take hs
    have hs3 := (List.perm_insertionSort
      (fun a b : SuggestionSlot => b.score ≤ a.score) pool).mem_iff.mp hs2
    exact hpool s hs3

/-- C6: `suggest_slots` returns at most five suggestions sorted by score
descending; every returned suggestion spans exactly the task estimate (so
never less), and a candidate window is emitted only when its duration is at
least the estimate, with the suggestion placed at the front of the window. -/
theorem suggest_slots_spec (w : World) (task_id : Nat) (date_range : Int × Int)
    (user_id : Nat) (task : Task)
    (htask : findTask w task_id user_id = some task) :
    (suggest_slots w task_id date_range user_id).length ≤ 5 ∧
    List.Pairwise (fun a b => b.score ≤ a.score)
      (suggest_slots w task_id date_range user_id) ∧
    (∀ s ∈ suggest_slots w task_id date_range user_id,
      s.end_time = s.start_time + task.estimated_duration_minutes ∧
      task.estimated_duration_minutes ≤ s.end_time - s.start_time) ∧
    (∀ calendar_day window_start window_end reason cd_id s,
      emit_suggestion task calendar_day window_start window_end reason cd_id = some s →
        task.estimated_duration_minutes ≤ window_end - window_start ∧
        s.start_time = window_start ∧
        s.end_time = s.start_time + task.estimated_duration_minutes) := by
  haveI : IsTotal SuggestionSlot (fun a b => b.score ≤ a.score) :=
    ⟨fun a b => le_total b.score a.score⟩
  haveI : IsTrans SuggestionSlot (fun a b => b.score ≤ a.score) :=
    ⟨fun a b c hab hbc => le_trans hbc hab⟩
  refine ⟨?_, ?_, ?_, fun cd ws we reason cid s hemit =>
    ⟨(emit_suggestion_spec _ _ _ _ _ _ _ hemit).1,
      (emit_suggestion_spec _ _ _ _ _ _ _ hemit).2.1,
      (emit_suggestion_spec _ _ _ _ _ _ _ hemit).2.2⟩⟩
  · unfold suggest_slots
    cases hcore : suggest_slots_core w task_id date_range user_id with
    | error e => simp
    | ok res =>
      rcases suggest_slots_core_shape w task_id date_range user_id res hcore with
        rfl | ⟨pool, rfl⟩
      · simp
      · simpa using (List.length_take_le 5 _)
  · unfold suggest_slots
    cases hcore : suggest_slots_core w task_id date_range user_id with
    | error e => exact List.Pairwise.nil
    | ok res =>
      rcases suggest_slots_core_shape w task_id date_range user_id res hcore with
        rfl | ⟨pool, rfl⟩
      · exact List.Pairwise.nil
      · exact List.Pairwise.sublist (List.take_sublist 5 _)
          (List.sorted_insertionSort (fun a b : SuggestionSlot => b.score ≤ a.score) pool)
  · unfold suggest_slots
    cases hcore : suggest_slots_core w task_id date_range user_id with
    | error e => intro s hs; cases hs
    | ok res =>
      intro s hs
      have hend := suggest_slots_core_mem w task_id date_range user_id task res htask hcore s hs
      exact ⟨hend, by omega⟩

/-- Witness for C6 at the default day contexts. -/
theorem suggest_slots_spec_witness :
    findTask worldPlain 1 7 = some task0 ∧
    (suggest_slots worldPlain 1 (0, 2879) 7).length ≤ 5 ∧
    (∀ s ∈ suggest_slots worldPlain 1 (0, 2879) 7,
      s.end_time = s.start_time + task0.estimated_duration_minutes ∧
      task0.estimated_duration_minutes ≤ s.end_time - s.start_time) :=
  ⟨by decide,
    (suggest_slots_spec worldPlain 1 (0, 2879) 7 task0 (by decide)).1,
    (suggest_slots_spec worldPlain 1 (0, 2879) 7 task0 (by decide)).2.2.1⟩

end TimeTamer
